import Mathlib

/-
  Verification development for the Superchess repository (chess.py + superchess.py).

  The engine state of `Chess`/`SuperChess` is embedded shallowly: the Python
  `piece_location` dictionary (64 cells, each holding a piece-name string, a
  selection flag and fixed board coordinates) becomes a list of 64 cells indexed
  by board coordinates; piece-name strings "white_pawn", ... become (color, kind)
  pairs; the `has_moved` / `position_counts` dictionaries become insertion-ordered
  association lists (CPython dict semantics: overwrite in place, append new keys);
  the `charges` dictionary becomes two integer fields.  Machine integers of the
  source are Python arbitrary-precision ints, embedded as `Int`/`Nat`.
  Out-of-range board accesses raise KeyError in Python; here `getXY` returns an
  empty cell, and all quantification over inputs is restricted to the in-range
  squares the Python callers pass.
-/

set_option maxHeartbeats 4000000
set_option maxRecDepth 8000

namespace Superchess

/-- Piece color, mirroring the "white"/"black" prefix of piece-name strings. -/
inductive Color where
  | white
  | black
deriving DecidableEq, Repr

/-- Piece kind, mirroring the suffix of piece-name strings in `chess.py`. -/
inductive Kind where
  | pawn
  | knight
  | bishop
  | rook
  | queen
  | king
deriving DecidableEq, Repr

def Color.other : Color → Color
  | .white => .black
  | .black => .white

def Color.str : Color → String
  | .white => "white"
  | .black => "black"

def Kind.str : Kind → String
  | .pawn => "pawn"
  | .knight => "knight"
  | .bishop => "bishop"
  | .rook => "rook"
  | .queen => "queen"
  | .king => "king"

/-- A piece value; `pieceName` recovers the exact Python piece-name string. -/
structure Piece where
  color : Color
  kind : Kind
deriving DecidableEq, Repr

def pieceName (p : Piece) : String := p.color.str ++ "_" ++ p.kind.str

/-- One board cell: `piece_location[f][r] = [piece_name_or_empty, selected_flag, [x, y]]`.
    The coordinate entry is an invariant of the square and is kept implicit. -/
structure Cell where
  piece : Option Piece
  sel : Bool
deriving DecidableEq, Repr

def emptyCell : Cell := ⟨none, false⟩

/-- The board: 64 cells, index of square with board coords (x, y) is `x*8 + y`
    (x = file index a..h, y = 0 at rank 8 down to 7 at rank 1, as in the source). -/
abbrev Board := List Cell

def bIdx (x y : Int) : Nat := x.toNat * 8 + y.toNat

def getXY (b : Board) (x y : Int) : Cell := b.getD (bIdx x y) emptyCell

def setCellXY (b : Board) (x y : Int) (c : Cell) : Board := b.set (bIdx x y) c

def setPieceXY (b : Board) (x y : Int) (p : Option Piece) : Board :=
  setCellXY b x y { getXY b x y with piece := p }

def setSelXY (b : Board) (x y : Int) (v : Bool) : Board :=
  setCellXY b x y { getXY b x y with sel := v }

/-- (file index 0..7, row number 1..8), the `(file_char, row_no)` key pair of the source. -/
abbrev SqKey := Nat × Nat

/-- Coordinates stored at `piece_location[f][r][2]`: x = file index, y = 8 - row. -/
def frToXY (f r : Nat) : Int × Int := ((f : Int), 8 - (r : Int))

/-- `Chess.xy_to_square` restricted to the (file index, row) pair. -/
def xyToFR (x y : Int) : SqKey := (x.toNat, (8 - y).toNat)

def getFR (b : Board) (f r : Nat) : Cell := getXY b f (8 - (r : Int))

def setPieceFR (b : Board) (f r : Nat) (p : Option Piece) : Board :=
  setPieceXY b f (8 - (r : Int)) p

def setSelFR (b : Board) (f r : Nat) (v : Bool) : Board :=
  setSelXY b f (8 - (r : Int)) v

def setCellFR (b : Board) (f r : Nat) (c : Cell) : Board :=
  setCellXY b f (8 - (r : Int)) c

/-- `Chess.xy_to_square`: x,y board coords -> ('a'..'h', 1..8). -/
def xy_to_square (x y : Int) : Char × Int := (Char.ofNat (97 + x).toNat, 8 - y)

/-- `Chess.square_to_xy`: ('a'..'h', 1..8) -> x,y board coords. -/
def square_to_xy (c : Char) (r : Int) : Int × Int := ((c.toNat : Int) - 97, 8 - r)

def filesList : List Nat := [0, 1, 2, 3, 4, 5, 6, 7]

def rowsAsc : List Nat := [1, 2, 3, 4, 5, 6, 7, 8]

def rowsDict : List Nat := [8, 7, 6, 5, 4, 3, 2, 1]

/-- Iteration order `for f in "abcdefgh": for r in range(1, 9)`. -/
def squaresAsc : List SqKey := filesList.flatMap fun f => rowsAsc.map fun r => (f, r)

/-- Iteration order `for f in piece_location: for r in piece_location[f]`
    (dict insertion order: rows 8 down to 1). -/
def squaresDict : List SqKey := filesList.flatMap fun f => rowsDict.map fun r => (f, r)

/-- Lookup mirroring `dict.get(key, default)` on `has_moved`. -/
def hmGet (hm : List (SqKey × Bool)) (k : SqKey) (dflt : Bool) : Bool :=
  match hm.find? fun e => e.1 = k with
  | some e => e.2
  | none => dflt

/-- Assignment mirroring `dict[key] = value` (overwrite in place, else append). -/
def hmSet : List (SqKey × Bool) → SqKey → Bool → List (SqKey × Bool)
  | [], k, v => [(k, v)]
  | e :: rest, k, v => if e.1 = k then (k, v) :: rest else e :: hmSet rest k v

/-- Lookup mirroring `position_counts.get(key, 0)`. -/
def pcGet (m : List (String × Nat)) (k : String) : Nat :=
  match m.find? fun e => e.1 = k with
  | some e => e.2
  | none => 0

def pcSet : List (String × Nat) → String → Nat → List (String × Nat)
  | [], k, v => [(k, v)]
  | e :: rest, k, v => if e.1 = k then (k, v) :: rest else e :: pcSet rest k v

def pcIncr (m : List (String × Nat)) (k : String) : List (String × Nat) :=
  pcSet m k (pcGet m k + 1)

/-- One fortress zone dict: `{'owner': color, 'squares': [...], 'ttl': n}`.
    The Python dicts are created without a "committed" key; `zone.get("committed",
    False)` therefore reads the `committed` field with creation default `false`. -/
structure Zone where
  owner : Color
  squares : List (Int × Int)
  ttl : Int
  committed : Bool
deriving DecidableEq, Repr

/-- The `last_move_meta` dict.  Keys that a given activation does not write
    (e.g. `redirected` on ordinary moves) are represented by their defaults. -/
structure MoveMeta where
  mtype : String
  msrc : Option SqKey
  mdst : Option (Int × Int)
  mpiece : Option Piece
  mcaptured : List Piece
  consumedCharge : Bool
  redirected : Bool := false
  redirectSquare : Option SqKey := none
deriving DecidableEq, Repr

/-- The complete mutable engine state of a `SuperChess` instance
    (UI-only members such as the screen and sprite loader are excluded). -/
@[ext]
structure GameState where
  board : Board
  turnWhite : Bool
  winner : String
  captured : List Piece
  hasMoved : List (SqKey × Bool)
  lastMove : Option ((Int × Int) × (Int × Int) × Piece)
  positionCounts : List (String × Nat)
  moves : List (Int × Int)
  aiAutoPromote : Bool
  wCharges : Int
  bCharges : Int
  previewing : Bool
  powerPreviewActive : Bool
  previewMoves : List (Int × Int)
  previewSource : Option SqKey
  previewSelected : Option SqKey
  powerPreviewName : Option String
  fortressZones : List Zone
  powerWasUsedThisTurn : Bool
  krcWhite : Bool
  krcBlack : Bool
  lastMoveMeta : Option MoveMeta
deriving DecidableEq, Repr

def getCharge (s : GameState) : Color → Int
  | .white => s.wCharges
  | .black => s.bCharges

def setCharge (s : GameState) (c : Color) (v : Int) : GameState :=
  match c with
  | .white => { s with wCharges := v }
  | .black => { s with bCharges := v }

def krcGet (s : GameState) : Color → Bool
  | .white => s.krcWhite
  | .black => s.krcBlack

/-- First selected square in dict iteration order (selection searches in the source). -/
def findSelected (s : GameState) : Option SqKey :=
  squaresDict.find? fun fr => (getFR s.board fr.1 fr.2).sel

/-- Sliding ray of `linear_moves`/`diagonal_moves`: step until the edge, include the
    first occupied square and stop there.  Fuel 8 bounds the at most 7 steps. -/
def rayGo (b : Board) (ddx ddy : Int) : Nat → Int → Int → List (Int × Int)
  | 0, _, _ => []
  | n + 1, cx, cy =>
    let nx := cx + ddx
    let ny := cy + ddy
    if nx < 0 ∨ ny < 0 ∨ 7 < nx ∨ 7 < ny then []
    else (nx, ny) ::
      (if (getXY b nx ny).piece.isSome then [] else rayGo b ddx ddy n nx ny)

/-- `Chess.linear_moves`. -/
def linearMoves (b : Board) (positions : List (Int × Int)) (x y : Int) : List (Int × Int) :=
  positions ++ rayGo b (-1) 0 8 x y ++ rayGo b 1 0 8 x y ++
    rayGo b 0 (-1) 8 x y ++ rayGo b 0 1 8 x y

/-- `Chess.diagonal_moves`. -/
def diagonalMoves (b : Board) (positions : List (Int × Int)) (x y : Int) : List (Int × Int) :=
  positions ++ rayGo b (-1) (-1) 8 x y ++ rayGo b 1 1 8 x y ++
    rayGo b (-1) 1 8 x y ++ rayGo b 1 (-1) 8 x y

/-- `Chess.pawn_moves`. -/
def pawnMoves (s : GameState) (color : Color) (x y : Int) : List (Int × Int) :=
  let dir : Int := if color = Color.black then 1 else -1
  let startY : Int := if color = Color.black then 1 else 6
  let fwd :=
    let ny := y + dir
    if 0 ≤ ny ∧ ny < 8 then
      if (getXY s.board x ny).piece = none then
        (x, ny) ::
          (if y = startY then
            if (getXY s.board x (y + 2 * dir)).piece = none then [(x, y + 2 * dir)] else []
          else [])
      else []
    else []
  let diags := [(-1 : Int), 1].flatMap fun ddx =>
    let nx := x + ddx
    let ny := y + dir
    if 0 ≤ nx ∧ nx < 8 ∧ 0 ≤ ny ∧ ny < 8 then
      match (getXY s.board nx ny).piece with
      | some t => if t.color ≠ color then [(nx, ny)] else []
      | none => []
    else []
  let ep :=
    match s.lastMove with
    | some ((_, lsy), (ldx, ldy), lp) =>
      if lp.kind = Kind.pawn ∧ (lsy - ldy).natAbs = 2 ∧ ldy = y ∧ (ldx - x).natAbs = 1 then
        [(ldx, y + dir)]
      else []
    | none => []
  fwd ++ diags ++ ep

def knightOffsets : List (Int × Int) :=
  [(2, 1), (2, -1), (-2, 1), (-2, -1), (1, 2), (1, -2), (-1, 2), (-1, -2)]

/-- The 8 king-adjacent offsets in the source's loop order. -/
def kingOffsets : List (Int × Int) :=
  [(-1, -1), (-1, 0), (-1, 1), (0, -1), (0, 1), (1, -1), (1, 0), (1, 1)]

def boundedOffsets (offs : List (Int × Int)) (x y : Int) : List (Int × Int) :=
  offs.filterMap fun d =>
    let nx := x + d.1
    let ny := y + d.2
    if 0 ≤ nx ∧ nx < 8 ∧ 0 ≤ ny ∧ ny < 8 then some (nx, ny) else none

/-- `Chess.attack_squares_for` (castling excluded, friendly occupancy ignored). -/
def attackSquaresFor (s : GameState) (p : Piece) (x y : Int) : List (Int × Int) :=
  match p.kind with
  | Kind.pawn =>
    let dir : Int := if p.color = Color.black then 1 else -1
    [(-1 : Int), 1].filterMap fun ddx =>
      let nx := x + ddx
      let ny := y + dir
      if 0 ≤ nx ∧ nx < 8 ∧ 0 ≤ ny ∧ ny < 8 then some (nx, ny) else none
  | Kind.knight => boundedOffsets knightOffsets x y
  | Kind.king => boundedOffsets kingOffsets x y
  | Kind.rook => linearMoves s.board [] x y
  | Kind.bishop => diagonalMoves s.board [] x y
  | Kind.queen => diagonalMoves s.board (linearMoves s.board [] x y) x y

/-- `Chess.is_square_attacked(color, square_xy)`: some piece of the opposing color
    attacks the square. -/
def isSquareAttacked (s : GameState) (color : Color) (sq : Int × Int) : Bool :=
  squaresAsc.any fun fr =>
    match (getFR s.board fr.1 fr.2).piece with
    | some p =>
      p.color = color.other &&
        decide (sq ∈ attackSquaresFor s p (frToXY fr.1 fr.2).1 (frToXY fr.1 fr.2).2)
    | none => false

/-- `Chess.find_king`: coordinates of the first cell holding `color_king`
    in `range(1, 9)` iteration order. -/
def findKing (s : GameState) (color : Color) : Option (Int × Int) :=
  (squaresAsc.find? fun fr =>
      (getFR s.board fr.1 fr.2).piece = some ⟨color, Kind.king⟩).map
    fun fr => frToXY fr.1 fr.2

/-- `Chess.is_in_check`: a missing king counts as not in check. -/
def isInCheck (s : GameState) (color : Color) : Bool :=
  match findKing s color with
  | some sq => isSquareAttacked s color sq
  | none => false

/-- `Chess.castling_moves`.  Note: only the passed-through square and the king's
    destination square are attack-tested, and the rank is derived from the color,
    not from the `pos` argument's y value (exactly as in the source). -/
def castlingMoves (s : GameState) (color : Color) (x _y : Int) : List (Int × Int) :=
  let backY : Int := if color = Color.black then 0 else 7
  let rowNo : Nat := if color = Color.black then 8 else 1
  let kingSq : SqKey := (x.toNat, rowNo)
  if hmGet s.hasMoved kingSq true then []
  else
    let ks :=
      if ¬ hmGet s.hasMoved (7, rowNo) true ∧
          (getFR s.board 7 rowNo).piece = some ⟨color, Kind.rook⟩ then
        if ((getFR s.board 5 rowNo).piece = none ∧ (getFR s.board 6 rowNo).piece = none) ∧
            ¬ isSquareAttacked s color (5, backY) = true ∧
            ¬ isSquareAttacked s color (6, backY) = true then
          [((6 : Int), backY)]
        else []
      else []
    let qs :=
      if ¬ hmGet s.hasMoved (0, rowNo) true ∧
          (getFR s.board 0 rowNo).piece = some ⟨color, Kind.rook⟩ then
        if ((getFR s.board 1 rowNo).piece = none ∧ (getFR s.board 2 rowNo).piece = none ∧
            (getFR s.board 3 rowNo).piece = none) ∧
            ¬ isSquareAttacked s color (3, backY) = true ∧
            ¬ isSquareAttacked s color (2, backY) = true then
          [((2 : Int), backY)]
        else []
      else []
    ks ++ qs

/-- `Chess.possible_moves`: pseudo-legal squares, with friendly-occupied targets
    pruned in the final uniform pass. -/
def possibleMoves (s : GameState) (p : Piece) (x y : Int) : List (Int × Int) :=
  let positions :=
    match p.kind with
    | Kind.pawn => pawnMoves s p.color x y
    | Kind.rook => linearMoves s.board [] x y
    | Kind.bishop => diagonalMoves s.board [] x y
    | Kind.queen => diagonalMoves s.board (linearMoves s.board [] x y) x y
    | Kind.knight => boundedOffsets knightOffsets x y
    | Kind.king => boundedOffsets kingOffsets x y ++ castlingMoves s p.color x y
  positions.filter fun d =>
    match (getXY s.board d.1 d.2).piece with
    | some t => t.color ≠ p.color
    | none => true

/-- The board part of `Chess.get_position_key`: one entry per square in
    file-major order a1..a8, b1..b8, ..., each the full piece name or ".". -/
def positionBoardParts (s : GameState) : List String :=
  squaresAsc.map fun fr =>
    match (getFR s.board fr.1 fr.2).piece with
    | some p => pieceName p
    | none => "."

/-- Castling-rights segment of the position key.  The source collects "K", "Q",
    "k", "q" in that order and joins `sorted(rights)`; since that order is already
    sorted, the join of the collected list is literally the same string. -/
def castlingRightsStr (s : GameState) : String :=
  let l :=
    (if (getFR s.board 7 1).piece = some ⟨Color.white, Kind.rook⟩ ∧
        ¬ hmGet s.hasMoved (7, 1) true = true then ["K"] else []) ++
    (if (getFR s.board 0 1).piece = some ⟨Color.white, Kind.rook⟩ ∧
        ¬ hmGet s.hasMoved (0, 1) true = true then ["Q"] else []) ++
    (if (getFR s.board 7 8).piece = some ⟨Color.black, Kind.rook⟩ ∧
        ¬ hmGet s.hasMoved (7, 8) true = true then ["k"] else []) ++
    (if (getFR s.board 0 8).piece = some ⟨Color.black, Kind.rook⟩ ∧
        ¬ hmGet s.hasMoved (0, 8) true = true then ["q"] else [])
  if l = [] then "-" else String.join l

/-- En-passant segment of the position key. -/
def epTargetStr (s : GameState) : String :=
  match s.lastMove with
  | some ((_, lsy), (ldx, ldy), p) =>
    if p.kind = Kind.pawn ∧ (lsy - ldy).natAbs = 2 then
      let midY := (lsy + ldy) / 2
      String.singleton (Char.ofNat (97 + ldx).toNat) ++ toString (8 - midY)
    else "-"
  | none => "-"

/-- `Chess.get_position_key`: `"{}_{}_{}_{}".format("".join(board_parts), turn,
    rights_str, ep)`. -/
def getPositionKey (s : GameState) : String :=
  String.join (positionBoardParts s) ++ "_" ++ (if s.turnWhite then "w" else "b") ++ "_" ++
    castlingRightsStr s ++ "_" ++ epTargetStr s

/-- En-passant block of `Chess.validate_move`: capture the passed pawn when a
    pawn moves diagonally onto an empty square matching the last-move rule. -/
def cvmEpStage (s : GameState) (simulate : Bool) (piece : Piece) (sx sy dx _dy : Int)
    (targetPiece : Option Piece) : GameState × Bool :=
  if piece.kind = Kind.pawn ∧ targetPiece = none ∧ dx ≠ sx then
    match s.lastMove with
    | some ((_, lsy), (ldx, ldy), lp) =>
      if lp.kind = Kind.pawn ∧ (lsy - ldy).natAbs = 2 ∧ ldx = dx ∧ ldy = sy then
        match (getXY s.board dx sy).piece with
        | some cp =>
          if cp.color ≠ piece.color then
            let sA := if simulate then s else { s with captured := s.captured ++ [cp] }
            ({ sA with board := setPieceXY sA.board dx sy none }, true)
          else (s, false)
        | none => (s, false)
      else (s, false)
    | none => (s, false)
  else (s, false)

/-- Castling block of `Chess.validate_move`: relocate the matching rook and mark
    its home square moved. -/
def cvmCastleStage (s : GameState) (piece : Piece) (srcR : Nat) (sx sy dx dy : Int) :
    GameState :=
  if piece.kind = Kind.king ∧ sy = dy ∧ (dx - sx).natAbs = 2 then
    match (getFR s.board (if sx < dx then 7 else 0) srcR).piece with
    | some rp =>
      if rp = ⟨piece.color, Kind.rook⟩ then
        { s with
          board := setPieceFR (setPieceFR s.board (if sx < dx then 5 else 3) srcR (some rp))
            (if sx < dx then 7 else 0) srcR none,
          hasMoved := hmSet s.hasMoved ((if sx < dx then 7 else 0), srcR) true }
      else s
    | none => s
  else s

/-- Normal-capture bookkeeping of `Chess.validate_move` (real moves only). -/
def cvmCaptureStage (s : GameState) (simulate didEP : Bool) (targetPiece : Option Piece) :
    GameState :=
  match targetPiece with
  | some tp => if ¬ didEP = true ∧ ¬ simulate = true then { s with captured := s.captured ++ [tp] } else s
  | none => s

/-- Primary relocation of `Chess.validate_move`: destination takes the piece, the
    source cell is cleared (piece and selection flag) and marked moved. -/
def cvmRelocateStage (s : GameState) (piece : Piece) (srcF srcR : Nat) (dx dy : Int) :
    GameState :=
  { s with
    board := setCellFR (setPieceXY s.board dx dy (some piece)) srcF srcR emptyCell,
    hasMoved := hmSet s.hasMoved (srcF, srcR) true }

/-- Promotion block of `Chess.validate_move`: auto-queen in simulation or with the
    AI override, otherwise the external `ask_promotion` choice. -/
def cvmPromoStage (s : GameState) (simulate autoPromote : Bool) (piece : Piece)
    (dx dy : Int) (promoChoice : Kind) : GameState :=
  if piece.kind = Kind.pawn ∧
      ((piece.color = Color.white ∧ dy = 0) ∨ (piece.color = Color.black ∧ dy = 7)) then
    if simulate then { s with board := setPieceXY s.board dx dy (some ⟨piece.color, Kind.queen⟩) }
    else if autoPromote then
      { s with board := setPieceXY s.board dx dy (some ⟨piece.color, Kind.queen⟩) }
    else { s with board := setPieceXY s.board dx dy (some ⟨piece.color, promoChoice⟩) }
  else s

/-- Final block of `Chess.validate_move` (real moves only): last-move record, turn
    flip and repetition-count increment for the new position. -/
def cvmFinishStage (s : GameState) (piece : Piece) (sx sy dx dy : Int) : GameState :=
  let s6 := { s with lastMove := some ((sx, sy), (dx, dy), piece), turnWhite := ¬ s.turnWhite }
  { s6 with positionCounts := pcIncr s6.positionCounts (getPositionKey s6) }

/-- `Chess.validate_move(destination, simulate, source)`.  `promoChoice` stands for
    the answer of the modal `ask_promotion` UI dialog, an external input consumed
    only on a real pawn promotion without the AI auto-promote override. -/
def chessValidateMove (s : GameState) (dest : Int × Int) (simulate : Bool)
    (source : Option SqKey) (promoChoice : Kind) : Bool × GameState :=
  let src? :=
    match source with
    | some fr => some fr
    | none => findSelected s
  match src? with
  | none => (false, s)
  | some (srcF, srcR) =>
    match (getFR s.board srcF srcR).piece with
    | none => (false, s)
    | some piece =>
      let sx := (frToXY srcF srcR).1
      let sy := (frToXY srcF srcR).2
      let targetPiece := (getXY s.board dest.1 dest.2).piece
      let ep := cvmEpStage s simulate piece sx sy dest.1 dest.2 targetPiece
      let s2 := cvmCastleStage ep.1 piece srcR sx sy dest.1 dest.2
      let s3 := cvmCaptureStage s2 simulate ep.2 targetPiece
      let s4 := cvmRelocateStage s3 piece srcF srcR dest.1 dest.2
      let s5 := cvmPromoStage s4 simulate s.aiAutoPromote piece dest.1 dest.2 promoChoice
      if simulate then (true, s5)
      else (true, cvmFinishStage s5 piece sx sy dest.1 dest.2)

/-- Back-rank piece order of `Chess.reset`. -/
def backRank : List Kind :=
  [Kind.rook, Kind.knight, Kind.bishop, Kind.queen, Kind.king, Kind.bishop, Kind.knight, Kind.rook]

/-- The standard starting board built by `Chess.reset`. -/
def standardBoard : Board :=
  (List.range 64).map fun i =>
    let x := i / 8
    let y := i % 8
    if y = 0 then ⟨some ⟨Color.black, backRank.getD x Kind.rook⟩, false⟩
    else if y = 1 then ⟨some ⟨Color.black, Kind.pawn⟩, false⟩
    else if y = 6 then ⟨some ⟨Color.white, Kind.pawn⟩, false⟩
    else if y = 7 then ⟨some ⟨Color.white, backRank.getD x Kind.rook⟩, false⟩
    else emptyCell

/-- `has_moved` entries seeded by `Chess.reset` (all 16 back-rank squares occupied). -/
def initHasMoved : List (SqKey × Bool) :=
  filesList.flatMap fun f => [((f, 1), false), ((f, 8), false)]

/-- State after `SuperChess.reset` just before the initial position count is recorded. -/
def resetBase : GameState :=
  { board := standardBoard
    turnWhite := true
    winner := ""
    captured := []
    hasMoved := initHasMoved
    lastMove := none
    positionCounts := []
    moves := []
    aiAutoPromote := false
    wCharges := 0
    bCharges := 0
    previewing := false
    powerPreviewActive := false
    previewMoves := []
    previewSource := none
    previewSelected := none
    powerPreviewName := none
    fortressZones := []
    powerWasUsedThisTurn := false
    krcWhite := false
    krcBlack := false
    lastMoveMeta := none }

/-- State after `SuperChess.reset` (initial position key counted once). -/
def resetState : GameState :=
  { resetBase with positionCounts := pcIncr resetBase.positionCounts (getPositionKey resetBase) }

/-- `Chess.reset` called on a live instance: `ai_auto_promote` is set in `__init__`
    only and survives a reset. -/
def resetFrom (s : GameState) : GameState :=
  { resetState with aiAutoPromote := s.aiAutoPromote }

/-- `SuperChess._clear_preview(full=True)` (the only form the source ever calls). -/
def clearPreviewFull (s : GameState) : GameState :=
  { s with
    previewMoves := []
    previewSource := none
    previewSelected := none
    powerPreviewName := none
    powerPreviewActive := false
    previewing := false
    moves := [] }

/-- `SuperChess.cancel_power_preview`: drops the flags and keeps only zones whose
    `committed` entry is true. -/
def cancelPowerPreview (s : GameState) : GameState :=
  { s with
    previewing := false
    powerPreviewActive := false
    fortressZones := s.fortressZones.filter fun z => z.committed }

/-- `SuperChess.expire_fortress_zones`: decrement every TTL, keep survivors. -/
def expireFortressZones (zs : List Zone) : List Zone :=
  (zs.map fun z => { z with ttl := z.ttl - 1 }).filter fun z => 0 < z.ttl

/-- `SuperChess._update_king_recently_checked`. -/
def updateKingRecentlyChecked (s : GameState) : GameState :=
  { s with krcWhite := isInCheck s Color.white, krcBlack := isInCheck s Color.black }

/-- Selection-flag sweep `for f: for r: piece_location[f][r][1] = False`. -/
def clearAllSelected (b : Board) : Board := b.map fun c => { c with sel := false }

/-- `SuperChess._consume_charge`. -/
def consumeCharge (s : GameState) (c : Color) : Bool × GameState :=
  if getCharge s c ≤ 0 then (false, s) else (true, setCharge s c (getCharge s c - 1))

/-- The 3x3 fortress square set around a centre, in the source's loop order,
    clipped to the board. -/
def zoneSquares (cx cy : Int) : List (Int × Int) :=
  [(-1 : Int), 0, 1].flatMap fun ddx =>
    [(-1 : Int), 0, 1].filterMap fun ddy =>
      let nx := cx + ddx
      let ny := cy + ddy
      if 0 ≤ nx ∧ nx < 8 ∧ 0 ≤ ny ∧ ny < 8 then some (nx, ny) else none

/-- `SuperChess._can_activate_power` (the source always passes concrete target
    coordinates from the preview, so the `dx is None` guards are vacuous here). -/
def canActivatePower (s : GameState) (sf sr : Nat) (pname : Option String) (dx dy : Int) : Bool :=
  match (getFR s.board sf sr).piece with
  | none => false
  | some piece =>
    let color := piece.color
    if pname = some "dark_empress" ∨ pname = some "phase_shift" ∨ pname = some "shadow_jump" then
      match (getXY s.board dx dy).piece with
      | some t => decide (t.color ≠ color)
      | none => true
    else if pname = some "royal_teleport" then
      match (getXY s.board dx dy).piece with
      | none => false
      | some t =>
        if t.color ≠ color then false
        else decide (¬ ((frToXY sf sr).1 = dx ∧ (frToXY sf sr).2 = dy))
    else if pname = some "fortress_field" then true
    else if pname = some "sacrifice" then true
    else
      match (getXY s.board dx dy).piece with
      | some t => decide (t.color ≠ color)
      | none => true

/-- `SuperChess._apply_move_without_checks` (used by dark empress and shadow jump). -/
def applyMoveWithoutChecks (s : GameState) (srcF srcR : Nat) (dstX dstY : Int)
    (simulate : Bool) : Bool × GameState :=
  match (getFR s.board srcF srcR).piece with
  | none => (false, s)
  | some piece =>
    let tgt := (getXY s.board dstX dstY).piece
    let s1 :=
      match tgt with
      | some t => if ¬ simulate then { s with captured := s.captured ++ [t] } else s
      | none => s
    let s2 :=
      { s1 with
        board := setCellFR (setPieceXY s1.board dstX dstY (some piece)) srcF srcR emptyCell,
        hasMoved := hmSet s1.hasMoved (srcF, srcR) true }
    let s3 :=
      if piece.kind = Kind.pawn ∧
          ((piece.color = Color.white ∧ dstY = 0) ∨ (piece.color = Color.black ∧ dstY = 7)) then
        { s2 with board := setPieceXY s2.board dstX dstY (some ⟨piece.color, Kind.queen⟩) }
      else s2
    if simulate then (true, s3)
    else
      (true,
        { s3 with
          lastMove := some (frToXY srcF srcR, (dstX, dstY), piece)
          turnWhite := ¬ s3.turnWhite
          lastMoveMeta := some
            { mtype := "move", msrc := some (srcF, srcR), mdst := some (dstX, dstY),
              mpiece := some piece, mcaptured := s3.captured.drop s.captured.length,
              consumedCharge := false } })

/-- `SuperChess._activate_royal_teleport`: swap the king with an allied piece. -/
def activateRoyalTeleport (s : GameState) (sf sr : Nat) (dx dy : Int) : Bool × GameState :=
  match (getFR s.board sf sr).piece with
  | none => (false, s)
  | some sp =>
    if sp.kind ≠ Kind.king then (false, s)
    else
      let df := (xyToFR dx dy).1
      let dr := (xyToFR dx dy).2
      match (getFR s.board df dr).piece with
      | none => (false, s)
      | some tp =>
        if tp.color ≠ sp.color then (false, s)
        else
          let b1 := setPieceFR (setPieceFR s.board df dr (some sp)) sf sr (some tp)
          let b2 := setSelFR (setSelFR b1 sf sr false) df dr false
          (true,
            { s with
              board := b2
              hasMoved := hmSet (hmSet s.hasMoved (sf, sr) true) (df, dr) true
              lastMove := some (frToXY sf sr, (dx, dy), sp)
              turnWhite := ¬ s.turnWhite
              lastMoveMeta := some
                { mtype := "royal_teleport", msrc := some (sf, sr), mdst := some (dx, dy),
                  mpiece := some sp, mcaptured := [], consumedCharge := true } })

/-- `SuperChess._activate_dark_empress`: queen moves like a knight. -/
def activateDarkEmpress (s : GameState) (sf sr : Nat) (dx dy : Int) : Bool × GameState :=
  match (getFR s.board sf sr).piece with
  | none => (false, s)
  | some sp =>
    if sp.kind ≠ Kind.queen then (false, s)
    else
      match (getXY s.board dx dy).piece with
      | some t =>
        if t.color = sp.color then (false, s)
        else
          let r := applyMoveWithoutChecks s sf sr dx dy false
          if ¬ r.1 then (false, r.2)
          else
            (true,
              { r.2 with
                lastMoveMeta := some
                  { mtype := "dark_empress", msrc := some (sf, sr), mdst := some (dx, dy),
                    mpiece := some sp, mcaptured := r.2.captured.drop s.captured.length,
                    consumedCharge := true } })
      | none =>
        let r := applyMoveWithoutChecks s sf sr dx dy false
        if ¬ r.1 then (false, r.2)
        else
          (true,
            { r.2 with
              lastMoveMeta := some
                { mtype := "dark_empress", msrc := some (sf, sr), mdst := some (dx, dy),
                  mpiece := some sp, mcaptured := r.2.captured.drop s.captured.length,
                  consumedCharge := true } })

/-- `SuperChess._activate_shadow_jump`: knight jumps within its 3x3 neighbourhood. -/
def activateShadowJump (s : GameState) (sf sr : Nat) (dx dy : Int) : Bool × GameState :=
  match (getFR s.board sf sr).piece with
  | none => (false, s)
  | some sp =>
    if sp.kind ≠ Kind.knight then (false, s)
    else
      match (getXY s.board dx dy).piece with
      | some t =>
        if t.color = sp.color then (false, s)
        else
          let r := applyMoveWithoutChecks s sf sr dx dy false
          if ¬ r.1 then (false, r.2)
          else
            (true,
              { r.2 with
                lastMoveMeta := some
                  { mtype := "shadow_jump", msrc := some (sf, sr), mdst := some (dx, dy),
                    mpiece := some sp, mcaptured := r.2.captured.drop s.captured.length,
                    consumedCharge := true } })
      | none =>
        let r := applyMoveWithoutChecks s sf sr dx dy false
        if ¬ r.1 then (false, r.2)
        else
          (true,
            { r.2 with
              lastMoveMeta := some
                { mtype := "shadow_jump", msrc := some (sf, sr), mdst := some (dx, dy),
                  mpiece := some sp, mcaptured := r.2.captured.drop s.captured.length,
                  consumedCharge := true } })

def signInt (d : Int) : Int := if d = 0 then 0 else if 0 < d then 1 else -1

/-- `SuperChess._activate_phase_shift`: relocate the bishop to the previewed square.
    If the target square holds an enemy king and the square one step back along the
    approach diagonal holds a piece of the king's color, the capture is redirected
    to that shield piece; otherwise the landing captures the occupant normally
    ("Otherwise capture normally (king square)" per the source's own docstring). -/
def activatePhaseShift (s : GameState) (sf sr : Nat) (dstX dstY : Int) : Bool × GameState :=
  match (getFR s.board sf sr).piece with
  | none => (false, s)
  | some sp =>
    if sp.kind ≠ Kind.bishop then (false, s)
    else
      let color := sp.color
      let sx := (frToXY sf sr).1
      let sy := (frToXY sf sr).2
      let dstPiece := (getXY s.board dstX dstY).piece
      let redirect? : Option (Nat × Nat × Int × Int × Piece) :=
        match dstPiece with
        | some dp =>
          if dp.kind = Kind.king ∧ dp.color ≠ color then
            let sxSign := signInt (dstX - sx)
            let sySign := signInt (dstY - sy)
            if sxSign ≠ 0 ∧ sySign ≠ 0 ∧ (dstX - sx).natAbs = (dstY - sy).natAbs then
              let shieldX := dstX - sxSign
              let shieldY := dstY - sySign
              if 0 ≤ shieldX ∧ shieldX < 8 ∧ 0 ≤ shieldY ∧ shieldY < 8 then
                match (getXY s.board shieldX shieldY).piece with
                | some shp =>
                  if shp.color = dp.color then
                    some ((xyToFR shieldX shieldY).1, (xyToFR shieldX shieldY).2,
                      shieldX, shieldY, shp)
                  else none
                | none => none
              else none
            else none
          else none
        | none => none
      match redirect? with
      | some (sfS, srS, shieldX, shieldY, shp) =>
        let s1 := { s with captured := s.captured ++ [shp] }
        (true,
          { s1 with
            board := setCellFR (setPieceFR s1.board sfS srS (some sp)) sf sr emptyCell
            hasMoved := hmSet s1.hasMoved (sf, sr) true
            lastMove := some ((sx, sy), (shieldX, shieldY), sp)
            turnWhite := ¬ s1.turnWhite
            lastMoveMeta := some
              { mtype := "phase_shift", msrc := some (sf, sr), mdst := some (shieldX, shieldY),
                mpiece := some sp, mcaptured := [shp], consumedCharge := true,
                redirected := true, redirectSquare := some (sfS, srS) } })
      | none =>
        match dstPiece with
        | some t =>
          if t.color = color then (false, s)
          else
            let s1 := { s with captured := s.captured ++ [t] }
            (true,
              { s1 with
                board := setCellFR (setPieceXY s1.board dstX dstY (some sp)) sf sr emptyCell
                hasMoved := hmSet s1.hasMoved (sf, sr) true
                lastMove := some ((sx, sy), (dstX, dstY), sp)
                turnWhite := ¬ s1.turnWhite
                lastMoveMeta := some
                  { mtype := "phase_shift", msrc := some (sf, sr), mdst := some (dstX, dstY),
                    mpiece := some sp, mcaptured := [t], consumedCharge := true,
                    redirected := false } })
        | none =>
          (true,
            { s with
              board := setCellFR (setPieceXY s.board dstX dstY (some sp)) sf sr emptyCell
              hasMoved := hmSet s.hasMoved (sf, sr) true
              lastMove := some ((sx, sy), (dstX, dstY), sp)
              turnWhite := ¬ s.turnWhite
              lastMoveMeta := some
                { mtype := "phase_shift", msrc := some (sf, sr), mdst := some (dstX, dstY),
                  mpiece := some sp, mcaptured := [], consumedCharge := true,
                  redirected := false } })

/-- `SuperChess._activate_fortress_field`: append a 3x3 zone with TTL 2 around the
    committed target square and toggle the turn; the rook does not move. -/
def activateFortressField (s : GameState) (sf sr : Nat) (dx dy : Int) : Bool × GameState :=
  match (getFR s.board sf sr).piece with
  | none => (false, s)
  | some sp =>
    if sp.kind ≠ Kind.rook then (false, s)
    else
      (true,
        { s with
          fortressZones := s.fortressZones ++ [⟨sp.color, zoneSquares dx dy, 2, false⟩]
          turnWhite := ¬ s.turnWhite
          lastMoveMeta := some
            { mtype := "fortress_field", msrc := some (sf, sr), mdst := some (dx, dy),
              mpiece := some sp, mcaptured := [], consumedCharge := true } })

/-- `SuperChess._activate_sacrifice`: the pawn removes itself and captures the
    enemy pieces directly left and right of it. -/
def activateSacrifice (s : GameState) (sf sr : Nat) : Bool × GameState :=
  match (getFR s.board sf sr).piece with
  | none => (false, s)
  | some sp =>
    if sp.kind ≠ Kind.pawn then (false, s)
    else
      let sx := (frToXY sf sr).1
      let sy := (frToXY sf sr).2
      let step := fun (acc : GameState × List Piece) (ox : Int) =>
        let nx := sx + ox
        if (0 ≤ nx ∧ nx < 8) ∧ (0 ≤ sy ∧ sy < 8) then
          match (getXY acc.1.board nx sy).piece with
          | some t =>
            if t.color ≠ sp.color then
              ({ acc.1 with
                  board := setPieceXY acc.1.board nx sy none,
                  captured := acc.1.captured ++ [t] },
                acc.2 ++ [t])
            else acc
          | none => acc
        else acc
      let a := step (step (s, []) (-1)) 1
      (true,
        { a.1 with
          board := setPieceFR a.1.board sf sr none
          turnWhite := ¬ a.1.turnWhite
          lastMoveMeta := some
            { mtype := "sacrifice", msrc := some (sf, sr), mdst := none,
              mpiece := some sp, mcaptured := a.2, consumedCharge := true } })

/-- `SuperChess.apply_super_move_simulate`: mirrors the real activations on the
    board, but a rook preview appends a fortress zone and a pawn preview appends
    to the captured list, and the caller restores neither of those. -/
def applySuperMoveSimulate (s : GameState) (srcF srcR : Nat) (dest : Int × Int) :
    Bool × GameState :=
  match (getFR s.board srcF srcR).piece with
  | none => (false, s)
  | some piece =>
    let color := piece.color
    let sx := (frToXY srcF srcR).1
    let sy := (frToXY srcF srcR).2
    let dx := dest.1
    let dy := dest.2
    match piece.kind with
    | Kind.king =>
      match (getXY s.board dx dy).piece with
      | some tgt =>
        if tgt.color = color ∧ tgt ≠ piece then
          (true, { s with board := setPieceFR (setPieceXY s.board dx dy (some piece)) srcF srcR (some tgt) })
        else (false, s)
      | none => (false, s)
    | Kind.rook =>
      (true, { s with fortressZones := s.fortressZones ++ [⟨color, zoneSquares sx sy, 2, false⟩] })
    | Kind.bishop =>
      match (getXY s.board dx dy).piece with
      | some t =>
        if t.color = color then (false, s)
        else (true, { s with board := setPieceFR (setPieceXY s.board dx dy (some piece)) srcF srcR none })
      | none =>
        (true, { s with board := setPieceFR (setPieceXY s.board dx dy (some piece)) srcF srcR none })
    | Kind.queen =>
      match (getXY s.board dx dy).piece with
      | some t =>
        if t.color = color then (false, s)
        else (true, { s with board := setPieceFR (setPieceXY s.board dx dy (some piece)) srcF srcR none })
      | none =>
        (true, { s with board := setPieceFR (setPieceXY s.board dx dy (some piece)) srcF srcR none })
    | Kind.knight =>
      match (getXY s.board dx dy).piece with
      | some t =>
        if t.color = color then (false, s)
        else (true, { s with board := setPieceFR (setPieceXY s.board dx dy (some piece)) srcF srcR none })
      | none =>
        (true, { s with board := setPieceFR (setPieceXY s.board dx dy (some piece)) srcF srcR none })
    | Kind.pawn =>
      let s1 := { s with board := setPieceFR s.board srcF srcR none }
      let step := fun (acc : GameState) (ox : Int) =>
        let nx := sx + ox
        if (0 ≤ nx ∧ nx < 8) ∧ (0 ≤ sy ∧ sy < 8) then
          match (getXY acc.board nx sy).piece with
          | some t =>
            if t.color ≠ color then
              { acc with captured := acc.captured ++ [t], board := setPieceXY acc.board nx sy none }
            else acc
          | none => acc
        else acc
      (true, step (step s1 (-1)) 1)

/-- The bishop phase-shift ray of `SuperChess.super_moves_for`: every diagonal
    square to the board edge, never stopping at occupants; an enemy-king square
    with a same-colored shield piece one step back is replaced by the shield
    square. -/
def phaseRay (s : GameState) (color : Color) (ddx ddy : Int) :
    Nat → Int → Int → List (Int × Int)
  | 0, _, _ => []
  | n + 1, cx, cy =>
    let nx := cx + ddx
    let ny := cy + ddy
    if nx < 0 ∨ ny < 0 ∨ 7 < nx ∨ 7 < ny then []
    else
      let entry :=
        match (getXY s.board nx ny).piece with
        | some occ =>
          if occ.kind = Kind.king ∧ occ.color ≠ color then
            let sxS := nx - ddx
            let syS := ny - ddy
            if 0 ≤ sxS ∧ sxS < 8 ∧ 0 ≤ syS ∧ syS < 8 then
              match (getXY s.board sxS syS).piece with
              | some shp => if shp.color = occ.color then (sxS, syS) else (nx, ny)
              | none => (nx, ny)
            else (nx, ny)
          else (nx, ny)
        | none => (nx, ny)
      entry :: phaseRay s color ddx ddy n nx ny

/-- `SuperChess.super_moves_for`: raw superpower landing squares for preview. -/
def superMovesFor (s : GameState) (piece : Piece) (x y : Int) : List (Int × Int) :=
  match piece.kind with
  | Kind.king =>
    squaresAsc.filterMap fun fr =>
      match (getFR s.board fr.1 fr.2).piece with
      | some p => if p.color = piece.color ∧ p ≠ piece then some (frToXY fr.1 fr.2) else none
      | none => none
  | Kind.queen =>
    knightOffsets.filterMap fun d =>
      let nx := x + d.1
      let ny := y + d.2
      if 0 ≤ nx ∧ nx < 8 ∧ 0 ≤ ny ∧ ny < 8 then
        match (getXY s.board nx ny).piece with
        | some occ => if occ.color = piece.color then none else some (nx, ny)
        | none => some (nx, ny)
      else none
  | Kind.rook => [(x, y)]
  | Kind.bishop =>
    [((-1 : Int), (-1 : Int)), (1, 1), (-1, 1), (1, -1)].flatMap fun d =>
      phaseRay s piece.color d.1 d.2 8 x y
  | Kind.knight =>
    [x - 1, x, x + 1].flatMap fun nx =>
      [y - 1, y, y + 1].filterMap fun ny =>
        if (0 ≤ nx ∧ nx < 8 ∧ 0 ≤ ny ∧ ny < 8) ∧ ¬ (nx = x ∧ ny = y) then
          match (getXY s.board nx ny).piece with
          | some occ => if occ.color = piece.color then none else some (nx, ny)
          | none => some (nx, ny)
        else none
  | Kind.pawn => [(x, y)]

/-- The kind-to-power-name table used by `toggle_preview` and `ai_move`. -/
def powerNameFor : Kind → Option String
  | Kind.king => some "royal_teleport"
  | Kind.queen => some "dark_empress"
  | Kind.rook => some "fortress_field"
  | Kind.bishop => some "phase_shift"
  | Kind.knight => some "shadow_jump"
  | Kind.pawn => some "sacrifice"

/-- Dispatch on `power_preview_name` in the preview branch of
    `SuperChess.validate_move`. -/
def activateDispatch (s : GameState) (pname : Option String) (sf sr : Nat) (dx dy : Int) :
    Bool × GameState :=
  if pname = some "royal_teleport" then activateRoyalTeleport s sf sr dx dy
  else if pname = some "dark_empress" then activateDarkEmpress s sf sr dx dy
  else if pname = some "fortress_field" then activateFortressField s sf sr dx dy
  else if pname = some "phase_shift" then activatePhaseShift s sf sr dx dy
  else if pname = some "shadow_jump" then activateShadowJump s sf sr dx dy
  else if pname = some "sacrifice" then activateSacrifice s sf sr
  else (false, s)

/-- The tail of a successful power commit: mark the power used, refresh the
    king-recently-checked flags, expire fortress TTLs, clear the preview and all
    selection highlights. -/
def commitFinish (s2 : GameState) : GameState :=
  let s3 := { s2 with powerWasUsedThisTurn := true }
  let s4 := updateKingRecentlyChecked s3
  let s5 := { s4 with fortressZones := expireFortressZones s4.fortressZones }
  let s6 := clearPreviewFull s5
  { s6 with board := clearAllSelected s6.board, moves := [] }

/-- The preview branch of `SuperChess.validate_move` (taken whenever
    `previewing and power_preview_active`; the `simulate`/`source` arguments are
    not consulted there). -/
def previewCommit (s : GameState) (dest : Int × Int) : Bool × GameState :=
  let src? :=
    match s.previewSource with
    | some fr => some fr
    | none => findSelected s
  match src? with
  | none => (false, clearPreviewFull s)
  | some (sf, sr) =>
    if dest ∉ s.previewMoves then (false, clearPreviewFull s)
    else
      match (getFR s.board sf sr).piece with
      | none => (false, clearPreviewFull s)
      | some piece =>
        if getCharge s piece.color ≤ 0 then (false, clearPreviewFull s)
        else if ¬ canActivatePower s sf sr s.powerPreviewName dest.1 dest.2 then
          (false, clearPreviewFull s)
        else
          let cr := consumeCharge s piece.color
          if ¬ cr.1 then (false, clearPreviewFull cr.2)
          else
            let ar := activateDispatch cr.2 s.powerPreviewName sf sr dest.1 dest.2
            if ar.1 then (true, commitFinish ar.2)
            else (false, clearPreviewFull ar.2)

/-- "the side that currently has the turn". -/
def moverOf (s : GameState) : Color := if s.turnWhite then Color.white else Color.black

/-- The mover as recomputed after the base call flipped the turn
    (`"white" if self.turn["black"] else "black"`). -/
def moverSideOf (s : GameState) : Color := if s.turnWhite then Color.black else Color.white

/-- The non-previewing branch of `SuperChess.validate_move`: the recently-checked
    castling block, delegation to the base move executor, charge award on capture,
    fortress TTL expiry and king-recently-checked update. -/
def normalMove (s : GameState) (dest : Int × Int) (simulate : Bool)
    (source : Option SqKey) (promoChoice : Kind) : Bool × GameState :=
  let mover := moverOf s
  let src? :=
    match source with
    | some fr => some fr
    | none => findSelected s
  let castleBlocked : Bool :=
    match src? with
    | some (f, r) =>
      match (getFR s.board f r).piece with
      | some p =>
        decide (p.kind = Kind.king ∧ krcGet s mover = true ∧
          (dest.1 - (frToXY f r).1).natAbs = 2 ∧ dest.2 = (frToXY f r).2)
      | none => false
    | none => false
  if castleBlocked then (false, s)
  else
    let before := s.captured.length
    let pieceBefore :=
      match src? with
      | some (f, r) => (getFR s.board f r).piece
      | none => none
    let r0 := chessValidateMove s dest simulate source promoChoice
    if r0.1 ∧ ¬ simulate then
      let s1 := r0.2
      let moverSide := moverSideOf s1
      let s2 :=
        if before < s1.captured.length then
          if getCharge s1 moverSide < 3 then
            setCharge s1 moverSide (min 3 (getCharge s1 moverSide + 1))
          else s1
        else s1
      let s3 := { s2 with fortressZones := expireFortressZones s2.fortressZones }
      let s4 := updateKingRecentlyChecked s3
      (true,
        { s4 with
          lastMoveMeta := some
            { mtype := "move", msrc := src?, mdst := some dest, mpiece := pieceBefore,
              mcaptured := s1.captured.drop before, consumedCharge := false } })
    else r0

/-- `SuperChess.validate_move`. -/
def superValidateMove (s : GameState) (dest : Int × Int) (simulate : Bool)
    (source : Option SqKey) (promoChoice : Kind) : Bool × GameState :=
  if s.previewing ∧ s.powerPreviewActive then previewCommit s dest
  else if ¬ s.previewing then normalMove s dest simulate source promoChoice
  else chessValidateMove s dest simulate source promoChoice

/-- One iteration of the `legal_moves_for` loop: back up, simulate the candidate,
    test the mover's king, restore the four backed-up components. -/
def legalSimStep
    (validate : GameState → Int × Int → Bool → Option SqKey → Bool × GameState)
    (color : Color) (src : SqKey)
    (acc : List (Int × Int) × GameState) (dst : Int × Int) :
    List (Int × Int) × GameState :=
  let cur := acc.2
  let r := validate cur dst true (some src)
  let keep := r.1 = true ∧ ¬ isInCheck r.2 color = true
  let restored :=
    { r.2 with
      board := cur.board, hasMoved := cur.hasMoved, lastMove := cur.lastMove,
      positionCounts := cur.positionCounts }
  ((if keep then acc.1 ++ [dst] else acc.1), restored)

/-- `Chess.legal_moves_for` parametrised by the dynamically dispatched
    `self.validate_move` (which resolves to `SuperChess.validate_move`). -/
def chessLegalMovesForWith
    (validate : GameState → Int × Int → Bool → Option SqKey → Bool × GameState)
    (s : GameState) (piece : Piece) (coord : Int × Int) :
    List (Int × Int) × GameState :=
  (possibleMoves s piece coord.1 coord.2).foldl
    (legalSimStep validate piece.color (xyToFR coord.1 coord.2)) ([], s)

/-- `SuperChess.legal_moves_for`: the base filter, then exclusion of destinations
    inside enemy fortress zones, then removal of castling destinations while the
    mover's king was recently checked.  The promotion choice cannot be consulted
    during simulation (simulated promotions auto-queen), so it is fixed here. -/
def superLegalMovesFor (s : GameState) (piece : Piece) (coord : Int × Int) :
    List (Int × Int) × GameState :=
  let br := chessLegalMovesForWith
    (fun s' d sim src => superValidateMove s' d sim src Kind.queen) s piece coord
  let s' := br.2
  let filtered :=
    if s'.fortressZones ≠ [] then
      br.1.filter fun d =>
        ¬ (s'.fortressZones.any fun z =>
          z.owner ≠ piece.color && decide (d ∈ z.squares)) = true
    else br.1
  let final :=
    if piece.kind = Kind.king ∧ krcGet s' piece.color = true then
      filtered.filter fun d => ¬ ((d.1 - coord.1).natAbs = 2 ∧ d.2 = coord.2)
    else filtered
  (final, s')

/-- One iteration of the preview-filter loop in `toggle_preview`: apply the
    simulated super effect, test the mover's king, restore board, has-moved and
    last-move to the deep copies taken before the loop. -/
def previewSimStep (sf sr : Nat) (color : Color) (bB : Board)
    (mB : List (SqKey × Bool)) (lB : Option ((Int × Int) × (Int × Int) × Piece))
    (acc : List (Int × Int) × GameState) (d : Int × Int) :
    List (Int × Int) × GameState :=
  let r := applySuperMoveSimulate acc.2 sf sr d
  let keep := ¬ isInCheck r.2 color = true
  let restored := { r.2 with board := bB, hasMoved := mB, lastMove := lB }
  ((if keep then acc.1 ++ [d] else acc.1), restored)

/-- `SuperChess.toggle_preview`. -/
def superTogglePreview (s : GameState) (color : Color) : GameState :=
  if s.previewing then
    let s1 := clearPreviewFull s
    match squaresDict.find? (fun fr =>
        (getFR s1.board fr.1 fr.2).sel &&
          match (getFR s1.board fr.1 fr.2).piece with
          | some p => p.color = color
          | none => false) with
    | some (f, r) =>
      match (getFR s1.board f r).piece with
      | some p =>
        let pr := superLegalMovesFor s1 p (frToXY f r)
        { pr.2 with moves := pr.1 }
      | none => { s1 with moves := [] }
    | none => { s1 with moves := [] }
  else
    match findSelected s with
    | none => s
    | some (sf, sr) =>
      match (getFR s.board sf sr).piece with
      | none => s
      | some p =>
        if p.color ≠ color then s
        else if getCharge s color ≤ 0 then s
        else
          let raw := superMovesFor s p (frToXY sf sr).1 (frToXY sf sr).2
          if raw = [] then s
          else
            let lr := raw.foldl
              (previewSimStep sf sr color s.board s.hasMoved s.lastMove) ([], s)
            if lr.1 = [] then lr.2
            else
              { lr.2 with
                previewing := true
                powerPreviewActive := true
                previewMoves := lr.1
                previewSource := some (sf, sr)
                previewSelected := none
                moves := lr.1
                powerPreviewName := powerNameFor p.kind }

/-- `SuperChess.start_power_preview_for_selected` (the sound effect is external).
    Note that it overwrites `preview_moves` with the raw, unfiltered target list. -/
def superStartPowerPreview (s : GameState) : GameState :=
  match findSelected s with
  | none => s
  | some (sf, sr) =>
    match (getFR s.board sf sr).piece with
    | none => s
    | some p =>
      let s1 := superTogglePreview s p.color
      { s1 with
        previewSource := some (sf, sr)
        previewMoves := superMovesFor s1 p (frToXY sf sr).1 (frToXY sf sr).2 }

/-- `Chess.has_legal_moves` with the dispatched legal-move filter: scan the
    mover's pieces in `range(1, 9)` order and stop at the first piece with a
    non-empty filtered move list. -/
def hasLegalStep (color : Color) (acc : Bool × GameState) (fr : SqKey) :
    Bool × GameState :=
  if acc.1 then acc
  else
    match (getFR acc.2.board fr.1 fr.2).piece with
    | some p =>
      if p.color = color then
        let r := superLegalMovesFor acc.2 p (frToXY fr.1 fr.2)
        (decide (r.1 ≠ []), r.2)
      else acc
    | none => acc

def superHasLegalMoves (s : GameState) (color : Color) : Bool × GameState :=
  squaresAsc.foldl (hasLegalStep color) (false, s)

def colorCapitalized : Color → String
  | .white => "White"
  | .black => "Black"

def threefoldCheck (s : GameState) : GameState :=
  if 3 ≤ pcGet s.positionCounts (getPositionKey s) then { s with winner := "Threefold" } else s

/-- `Chess._after_move_checks` with Python short-circuit evaluation order made
    explicit (`is_in_check` is re-evaluated before the stalemate test). -/
def afterMoveChecks (s : GameState) (turn : Color) : GameState :=
  let opp := turn.other
  if isInCheck s opp then
    let hl := superHasLegalMoves s opp
    if ¬ hl.1 then { hl.2 with winner := colorCapitalized turn }
    else
      if ¬ isInCheck hl.2 opp then
        let hl2 := superHasLegalMoves hl.2 opp
        if ¬ hl2.1 then { hl2.2 with winner := "Stalemate" }
        else threefoldCheck hl2.2
      else threefoldCheck hl.2
  else
    let hl2 := superHasLegalMoves s opp
    if ¬ hl2.1 then { hl2.2 with winner := "Stalemate" }
    else threefoldCheck hl2.2

/-- `Chess.move_piece` driven by the result of `get_selected_square` (the clicked
    square, or none when the click misses the board); `promoChoice` is the
    external promotion answer as in `chessValidateMove`. -/
def superMovePiece (s : GameState) (turn : Color) (clicked : Option SqKey)
    (promoChoice : Kind) : GameState :=
  if s.winner ≠ "" then s
  else
    match clicked with
    | none => s
    | some (f, r) =>
      match (getFR s.board f r).piece with
      | none =>
        let xy := frToXY f r
        if xy ∈ s.moves then
          match findSelected s with
          | none => s
          | some sel =>
            let r1 := superValidateMove s xy false (some sel) promoChoice
            let s1 := { r1.2 with moves := [] }
            if r1.1 then afterMoveChecks s1 turn else s1
        else s
      | some p =>
        let xy := frToXY f r
        if p.color = turn then
          let lr := superLegalMovesFor s p xy
          let s1 := { lr.2 with moves := lr.1 }
          { s1 with board := setSelFR (clearAllSelected s1.board) f r true }
        else if xy ∈ s.moves then
          match findSelected s with
          | none => s
          | some sel =>
            let r1 := superValidateMove s xy false (some sel) promoChoice
            let s1 := { r1.2 with moves := [] }
            if r1.1 then afterMoveChecks s1 turn else s1
        else s

/-! ### Frame lemmas: which state components each operation can touch -/

theorem cvmEpStage_shape (s : GameState) (sim : Bool) (p : Piece) (sx sy dx dy : Int)
    (tp : Option Piece) :
    ∃ b cap, (cvmEpStage s sim p sx sy dx dy tp).1 = { s with board := b, captured := cap } ∧
      (sim = true → cap = s.captured) := by
  unfold cvmEpStage
  repeat' split
  all_goals first
    | exact ⟨_, _, rfl, fun _ => rfl⟩
    | (rename_i hsim; exact ⟨_, _, rfl, fun hc => absurd hc hsim⟩)

theorem cvmCastleStage_shape (s : GameState) (p : Piece) (srcR : Nat) (sx sy dx dy : Int) :
    ∃ b hm, cvmCastleStage s p srcR sx sy dx dy = { s with board := b, hasMoved := hm } := by
  unfold cvmCastleStage
  repeat' split
  all_goals exact ⟨_, _, rfl⟩

theorem cvmCaptureStage_shape (s : GameState) (sim didEP : Bool) (tp : Option Piece) :
    ∃ cap, cvmCaptureStage s sim didEP tp = { s with captured := cap } ∧
      (sim = true → cap = s.captured) := by
  unfold cvmCaptureStage
  repeat' split
  all_goals first
    | exact ⟨_, rfl, fun _ => rfl⟩
    | (rename_i h; exact ⟨_, rfl, fun hc => absurd hc h.2⟩)

theorem cvmPromoStage_shape (s : GameState) (sim ap : Bool) (p : Piece) (dx dy : Int)
    (pc : Kind) :
    ∃ b, cvmPromoStage s sim ap p dx dy pc = { s with board := b } := by
  unfold cvmPromoStage
  repeat' split
  all_goals exact ⟨_, rfl⟩

theorem chessValidateMove_shape (s : GameState) (dest : Int × Int) (sim : Bool)
    (src : Option SqKey) (pc : Kind) :
    ∃ b hm cap lm tw pcnt,
      (chessValidateMove s dest sim src pc).2 =
        { s with board := b, hasMoved := hm, captured := cap, lastMove := lm,
                 turnWhite := tw, positionCounts := pcnt } := by
  unfold chessValidateMove
  dsimp only
  split
  · exact ⟨_, _, _, _, _, _, rfl⟩
  · split
    · exact ⟨_, _, _, _, _, _, rfl⟩
    · rename_i src? srcF srcR hsrc o piece hp
      obtain ⟨bE, cE, hE, -⟩ := cvmEpStage_shape s sim piece (frToXY srcF srcR).1
        (frToXY srcF srcR).2 dest.1 dest.2 (getXY s.board dest.1 dest.2).piece
      rw [hE]
      obtain ⟨bC, hmC, hC⟩ := cvmCastleStage_shape { s with board := bE, captured := cE } piece
        srcR (frToXY srcF srcR).1 (frToXY srcF srcR).2 dest.1 dest.2
      rw [hC]
      obtain ⟨cC, hCap, -⟩ := cvmCaptureStage_shape
        { s with board := bC, hasMoved := hmC, captured := cE }
        sim (cvmEpStage s sim piece (frToXY srcF srcR).1 (frToXY srcF srcR).2
          dest.1 dest.2 (getXY s.board dest.1 dest.2).piece).2
        (getXY s.board dest.1 dest.2).piece
      rw [hCap]
      obtain ⟨bP, hP⟩ := cvmPromoStage_shape
        (cvmRelocateStage { s with board := bC, hasMoved := hmC, captured := cC } piece
          srcF srcR dest.1 dest.2)
        sim s.aiAutoPromote piece dest.1 dest.2 pc
      rw [cvmRelocateStage] at hP
      rw [cvmRelocateStage, hP]
      split
      · exact ⟨_, _, _, _, _, _, rfl⟩
      · exact ⟨_, _, _, _, _, _, rfl⟩

theorem chessValidateMove_sim_shape (s : GameState) (dest : Int × Int)
    (src : Option SqKey) (pc : Kind) :
    ∃ b hm,
      (chessValidateMove s dest true src pc).2 = { s with board := b, hasMoved := hm } := by
  unfold chessValidateMove
  dsimp only
  split
  · exact ⟨_, _, rfl⟩
  · split
    · exact ⟨_, _, rfl⟩
    · rename_i src? srcF srcR hsrc o piece hp
      obtain ⟨bE, cE, hE, hsimE⟩ := cvmEpStage_shape s true piece (frToXY srcF srcR).1
        (frToXY srcF srcR).2 dest.1 dest.2 (getXY s.board dest.1 dest.2).piece
      rw [hE, hsimE rfl]
      obtain ⟨bC, hmC, hC⟩ := cvmCastleStage_shape { s with board := bE } piece
        srcR (frToXY srcF srcR).1 (frToXY srcF srcR).2 dest.1 dest.2
      rw [hC]
      obtain ⟨cC, hCap, hsimC⟩ := cvmCaptureStage_shape
        { s with board := bC, hasMoved := hmC }
        true (cvmEpStage s true piece (frToXY srcF srcR).1 (frToXY srcF srcR).2
          dest.1 dest.2 (getXY s.board dest.1 dest.2).piece).2
        (getXY s.board dest.1 dest.2).piece
      rw [hCap, hsimC rfl]
      obtain ⟨bP, hP⟩ := cvmPromoStage_shape
        (cvmRelocateStage { s with board := bC, hasMoved := hmC } piece
          srcF srcR dest.1 dest.2)
        true s.aiAutoPromote piece dest.1 dest.2 pc
      rw [cvmRelocateStage] at hP
      rw [cvmRelocateStage, hP]
      exact ⟨_, _, rfl⟩

/-- Every fortress zone the engine ever builds carries `committed = false`
    (the Python zone dicts are created without a "committed" key). -/
def ZonesUncommitted (s : GameState) : Prop :=
  ∀ z ∈ s.fortressZones, z.committed = false

/-- The charge bound of the spec: both counters stay within [0, 3]. -/
def ChargesInv (s : GameState) : Prop :=
  0 ≤ s.wCharges ∧ s.wCharges ≤ 3 ∧ 0 ≤ s.bCharges ∧ s.bCharges ≤ 3

theorem expireFortressZones_uncommitted (zs : List Zone)
    (h : ∀ z ∈ zs, z.committed = false) :
    ∀ z ∈ expireFortressZones zs, z.committed = false := by
  intro z hz
  unfold expireFortressZones at hz
  obtain ⟨hz', -⟩ := List.mem_filter.mp hz
  obtain ⟨z0, hz0, rfl⟩ := List.mem_map.mp hz'
  exact h z0 hz0

theorem activateRoyalTeleport_shape (s : GameState) (sf sr : Nat) (dx dy : Int) :
    ∃ b hm lm tw mm,
      (activateRoyalTeleport s sf sr dx dy).2 =
        { s with board := b, hasMoved := hm, lastMove := lm, turnWhite := tw,
                 lastMoveMeta := mm } := by
  unfold activateRoyalTeleport
  dsimp only
  repeat' split
  all_goals exact ⟨_, _, _, _, _, rfl⟩

theorem applyMoveWithoutChecks_shape (s : GameState) (sf sr : Nat) (dx dy : Int)
    (sim : Bool) :
    ∃ b hm cap lm tw mm,
      (applyMoveWithoutChecks s sf sr dx dy sim).2 =
        { s with board := b, hasMoved := hm, captured := cap, lastMove := lm,
                 turnWhite := tw, lastMoveMeta := mm } := by
  unfold applyMoveWithoutChecks
  dsimp only
  repeat' split
  all_goals exact ⟨_, _, _, _, _, _, rfl⟩

theorem activateDarkEmpress_shape (s : GameState) (sf sr : Nat) (dx dy : Int) :
    ∃ b hm cap lm tw mm,
      (activateDarkEmpress s sf sr dx dy).2 =
        { s with board := b, hasMoved := hm, captured := cap, lastMove := lm,
                 turnWhite := tw, lastMoveMeta := mm } := by
  unfold activateDarkEmpress
  dsimp only
  repeat' split
  all_goals
    first
    | exact ⟨_, _, _, _, _, _, rfl⟩
    | · obtain ⟨b, hm, cap, lm, tw, mm, h⟩ := applyMoveWithoutChecks_shape s sf sr dx dy false
        rw [h]
        exact ⟨_, _, _, _, _, _, rfl⟩

theorem activateShadowJump_shape (s : GameState) (sf sr : Nat) (dx dy : Int) :
    ∃ b hm cap lm tw mm,
      (activateShadowJump s sf sr dx dy).2 =
        { s with board := b, hasMoved := hm, captured := cap, lastMove := lm,
                 turnWhite := tw, lastMoveMeta := mm } := by
  unfold activateShadowJump
  dsimp only
  repeat' split
  all_goals
    first
    | exact ⟨_, _, _, _, _, _, rfl⟩
    | · obtain ⟨b, hm, cap, lm, tw, mm, h⟩ := applyMoveWithoutChecks_shape s sf sr dx dy false
        rw [h]
        exact ⟨_, _, _, _, _, _, rfl⟩

theorem activatePhaseShift_shape (s : GameState) (sf sr : Nat) (dx dy : Int) :
    ∃ b hm cap lm tw mm,
      (activatePhaseShift s sf sr dx dy).2 =
        { s with board := b, hasMoved := hm, captured := cap, lastMove := lm,
                 turnWhite := tw, lastMoveMeta := mm } := by
  unfold activatePhaseShift
  dsimp only
  repeat' split
  all_goals exact ⟨_, _, _, _, _, _, rfl⟩

theorem activateSacrifice_shape (s : GameState) (sf sr : Nat) :
    ∃ b cap tw mm,
      (activateSacrifice s sf sr).2 =
        { s with board := b, captured := cap, turnWhite := tw, lastMoveMeta := mm } := by
  unfold activateSacrifice
  dsimp only
  repeat' split
  all_goals exact ⟨_, _, _, _, rfl⟩

theorem activateFortressField_shape (s : GameState) (sf sr : Nat) (dx dy : Int) :
    ∃ zAdd tw mm,
      (activateFortressField s sf sr dx dy).2 =
        { s with fortressZones := s.fortressZones ++ zAdd, turnWhite := tw,
                 lastMoveMeta := mm } ∧
      ∀ z ∈ zAdd, z.committed = false := by
  unfold activateFortressField
  repeat' split
  all_goals
    first
    | exact ⟨[⟨_, _, 2, false⟩], _, _, rfl, by simp⟩
    | (refine ⟨[], s.turnWhite, s.lastMoveMeta, ?_, by simp⟩; simp)

/-- Canonical frame fact for all six activations: only the listed fields can
    change, and any appended fortress zones are uncommitted. -/
theorem activateDispatch_shape (s : GameState) (pn : Option String) (sf sr : Nat)
    (dx dy : Int) :
    ∃ b hm cap lm tw mm zs,
      (activateDispatch s pn sf sr dx dy).2 =
        { s with board := b, hasMoved := hm, captured := cap, lastMove := lm,
                 turnWhite := tw, lastMoveMeta := mm, fortressZones := zs } ∧
      (ZonesUncommitted s → ∀ z ∈ zs, z.committed = false) := by
  unfold activateDispatch
  repeat' split
  · obtain ⟨b, hm, lm, tw, mm, h⟩ := activateRoyalTeleport_shape s sf sr dx dy
    rw [h]
    exact ⟨_, _, _, _, _, _, _, rfl, fun hz => hz⟩
  · obtain ⟨b, hm, cap, lm, tw, mm, h⟩ := activateDarkEmpress_shape s sf sr dx dy
    rw [h]
    exact ⟨_, _, _, _, _, _, _, rfl, fun hz => hz⟩
  · obtain ⟨zAdd, tw, mm, h, hzs⟩ := activateFortressField_shape s sf sr dx dy
    rw [h]
    refine ⟨_, _, _, _, _, _, _, rfl, fun hz => ?_⟩
    intro z hzmem
    rcases List.mem_append.mp hzmem with h1 | h2
    · exact hz z h1
    · exact hzs z h2

  · obtain ⟨b, hm, cap, lm, tw, mm, h⟩ := activatePhaseShift_shape s sf sr dx dy
    rw [h]
    exact ⟨_, _, _, _, _, _, _, rfl, fun hz => hz⟩
  · obtain ⟨b, hm, cap, lm, tw, mm, h⟩ := activateShadowJump_shape s sf sr dx dy
    rw [h]
    exact ⟨_, _, _, _, _, _, _, rfl, fun hz => hz⟩
  · obtain ⟨b, cap, tw, mm, h⟩ := activateSacrifice_shape s sf sr
    rw [h]
    exact ⟨_, _, _, _, _, _, _, rfl, fun hz => hz⟩
  · exact ⟨_, _, _, _, _, _, _, rfl, fun hz => hz⟩

theorem foldl_snd_fixed {α γ β : Type} (f : γ × β → α → γ × β) (s0 : β)
    (h : ∀ acc a, acc.2 = s0 → (f acc a).2 = acc.2) :
    ∀ (l : List α) (acc : γ × β), acc.2 = s0 → (List.foldl f acc l).2 = s0 := by
  intro l
  induction l with
  | nil => intro acc hacc; exact hacc
  | cons a t ih =>
    intro acc hacc
    rw [List.foldl_cons]
    exact ih (f acc a) ((h acc a hacc).trans hacc)

theorem foldl_snd_inv {α γ β : Type} (f : γ × β → α → γ × β) (P : β → Prop)
    (h : ∀ acc a, P acc.2 → P (f acc a).2) :
    ∀ (l : List α) (acc : γ × β), P acc.2 → P (List.foldl f acc l).2 := by
  intro l
  induction l with
  | nil => intro acc hacc; exact hacc
  | cons a t ih =>
    intro acc hacc
    rw [List.foldl_cons]
    exact ih (f acc a) (h acc a hacc)

theorem normalMove_sim_shape (s : GameState) (d : Int × Int) (src : Option SqKey)
    (pc : Kind) :
    ∃ b hm, (normalMove s d true src pc).2 = { s with board := b, hasMoved := hm } := by
  unfold normalMove
  dsimp only
  split
  · exact ⟨_, _, rfl⟩
  · split
    · rename_i h
      exact absurd h.2 (by simp)
    · exact chessValidateMove_sim_shape s d src pc

theorem superValidateMove_sim_shape (s : GameState) (d : Int × Int) (src : Option SqKey)
    (pc : Kind) (h : ¬ (s.previewing = true ∧ s.powerPreviewActive = true)) :
    ∃ b hm, (superValidateMove s d true src pc).2 = { s with board := b, hasMoved := hm } := by
  unfold superValidateMove
  split
  · rename_i hc; exact absurd hc h
  · split
    · exact normalMove_sim_shape s d src pc
    · exact chessValidateMove_sim_shape s d src pc

theorem legalSimStep_snd_fixed (validate : GameState → Int × Int → Bool → Option SqKey →
      Bool × GameState) (color : Color) (src : SqKey) (s0 : GameState)
    (hval : ∀ d s', ∃ b hm, (validate s0 d true s').2 = { s0 with board := b, hasMoved := hm }) :
    ∀ acc dst, acc.2 = s0 → (legalSimStep validate color src acc dst).2 = acc.2 := by
  intro acc dst hacc
  unfold legalSimStep
  dsimp only
  rw [hacc]
  obtain ⟨b, hm, h⟩ := hval dst (some src)
  rw [h]

/-- The state netted back by `legal_moves_for`: the restore step undoes every
    mutation the simulated `validate_move` calls made (given the validate function
    only touches board and has-moved flags, which holds away from an active
    power preview). -/
theorem chessLegalMovesForWith_snd (validate : GameState → Int × Int → Bool →
      Option SqKey → Bool × GameState) (s : GameState) (p : Piece) (coord : Int × Int)
    (hval : ∀ d s', ∃ b hm, (validate s d true s').2 = { s with board := b, hasMoved := hm }) :
    (chessLegalMovesForWith validate s p coord).2 = s := by
  unfold chessLegalMovesForWith
  exact foldl_snd_fixed _ s (legalSimStep_snd_fixed validate p.color _ s hval) _ ([], s) rfl

theorem superLegalMovesFor_snd (s : GameState) (p : Piece) (coord : Int × Int)
    (h : ¬ (s.previewing = true ∧ s.powerPreviewActive = true)) :
    (superLegalMovesFor s p coord).2 = s := by
  unfold superLegalMovesFor
  dsimp only
  exact chessLegalMovesForWith_snd _ s p coord
    (fun d s' => superValidateMove_sim_shape s d s' Kind.queen h)

theorem consumeCharge_inv {s : GameState} (c : Color) (h : ChargesInv s) :
    ChargesInv (consumeCharge s c).2 := by
  unfold consumeCharge
  split
  · exact h
  · rename_i hc
    obtain ⟨h1, h2, h3, h4⟩ := h
    cases c with
    | white =>
      simp only [getCharge] at hc
      exact ⟨by simp [setCharge, getCharge]; omega, by simp [setCharge, getCharge]; omega,
        by simpa [setCharge, getCharge] using h3, by simpa [setCharge, getCharge] using h4⟩
    | black =>
      simp only [getCharge] at hc
      exact ⟨by simpa [setCharge, getCharge] using h1, by simpa [setCharge, getCharge] using h2,
        by simp [setCharge, getCharge]; omega, by simp [setCharge, getCharge]; omega⟩

theorem getCharge_bounds {s : GameState} (c : Color) (h : ChargesInv s) :
    0 ≤ getCharge s c ∧ getCharge s c ≤ 3 := by
  cases c
  · exact ⟨h.1, h.2.1⟩
  · exact ⟨h.2.2.1, h.2.2.2⟩

theorem setCharge_charges_inv {s : GameState} (c : Color) (v : Int) (h0 : 0 ≤ v)
    (h3 : v ≤ 3) (h : ChargesInv s) : ChargesInv (setCharge s c v) := by
  obtain ⟨h1, h2, h4, h5⟩ := h
  cases c
  · exact ⟨by simpa [setCharge] using h0, by simpa [setCharge] using h3,
      by simpa [setCharge] using h4, by simpa [setCharge] using h5⟩
  · exact ⟨by simpa [setCharge] using h1, by simpa [setCharge] using h2,
      by simpa [setCharge] using h0, by simpa [setCharge] using h3⟩

theorem setCharge_zones (s : GameState) (c : Color) (v : Int) :
    (setCharge s c v).fortressZones = s.fortressZones := by
  cases c <;> rfl

theorem awardStage_inv {s1 : GameState} (side : Color) (h : ChargesInv s1) :
    ChargesInv (if getCharge s1 side < 3 then
      setCharge s1 side (min 3 (getCharge s1 side + 1)) else s1) := by
  split
  · refine setCharge_charges_inv side _ (le_min (by norm_num) ?_) (min_le_left _ _) h
    have := (getCharge_bounds side h).1
    omega
  · exact h

theorem awardStage_zones (s1 : GameState) (side : Color) :
    (if getCharge s1 side < 3 then
      setCharge s1 side (min 3 (getCharge s1 side + 1)) else s1).fortressZones =
      s1.fortressZones := by
  split
  · exact setCharge_zones _ _ _
  · rfl

theorem chessValidateMove_frames (s : GameState) (d : Int × Int) (sim : Bool)
    (src : Option SqKey) (pc : Kind) :
    (chessValidateMove s d sim src pc).2.wCharges = s.wCharges ∧
    (chessValidateMove s d sim src pc).2.bCharges = s.bCharges ∧
    (chessValidateMove s d sim src pc).2.fortressZones = s.fortressZones ∧
    (chessValidateMove s d sim src pc).2.previewing = s.previewing ∧
    (chessValidateMove s d sim src pc).2.powerPreviewActive = s.powerPreviewActive ∧
    (chessValidateMove s d sim src pc).2.winner = s.winner := by
  obtain ⟨b, hm, cap, lm, tw, pcnt, h⟩ := chessValidateMove_shape s d sim src pc
  rw [h]
  exact ⟨rfl, rfl, rfl, rfl, rfl, rfl⟩

theorem normalMove_inv {s : GameState} (d : Int × Int) (sim : Bool)
    (src : Option SqKey) (pc : Kind) (hc : ChargesInv s) (hz : ZonesUncommitted s) :
    ChargesInv (normalMove s d sim src pc).2 ∧
      ZonesUncommitted (normalMove s d sim src pc).2 := by
  obtain ⟨b, hm, cap, lm, tw, pcnt, hshape⟩ := chessValidateMove_shape s d sim src pc
  unfold normalMove
  dsimp only
  split
  · exact ⟨hc, hz⟩
  · split
    · rw [hshape]
      constructor
      · split
        · exact awardStage_inv _ hc
        · exact hc
      · intro z hzmem
        refine expireFortressZones_uncommitted _ ?_ z hzmem
        split
        · split
          · cases tw <;> exact hz
          · exact hz
        · exact hz
    · rw [hshape]
      exact ⟨hc, hz⟩

theorem consumeCharge_zones (s : GameState) (c : Color) :
    (consumeCharge s c).2.fortressZones = s.fortressZones := by
  unfold consumeCharge
  split
  · rfl
  · exact setCharge_zones _ _ _

theorem consumeCharge_zonesInv {s : GameState} (c : Color) (h : ZonesUncommitted s) :
    ZonesUncommitted (consumeCharge s c).2 := by
  intro z hz
  rw [consumeCharge_zones] at hz
  exact h z hz

theorem dispatch_charges {X : GameState} (pn : Option String) (sf sr : Nat) (dx dy : Int)
    (h : ChargesInv X) : ChargesInv (activateDispatch X pn sf sr dx dy).2 := by
  obtain ⟨b, hm, cap, lm, tw, mm, zs, hsh, -⟩ := activateDispatch_shape X pn sf sr dx dy
  rw [hsh]
  exact h

theorem dispatch_zones {X : GameState} (pn : Option String) (sf sr : Nat) (dx dy : Int)
    (h : ZonesUncommitted X) : ZonesUncommitted (activateDispatch X pn sf sr dx dy).2 := by
  obtain ⟨b, hm, cap, lm, tw, mm, zs, hsh, hzs⟩ := activateDispatch_shape X pn sf sr dx dy
  rw [hsh]
  exact hzs h

theorem commitFinish_charges {X : GameState} (h : ChargesInv X) :
    ChargesInv (commitFinish X) := h

theorem commitFinish_zones {X : GameState} (h : ZonesUncommitted X) :
    ZonesUncommitted (commitFinish X) := fun z hz =>
  expireFortressZones_uncommitted _ h z hz

theorem previewCommit_inv {s : GameState} (d : Int × Int) (hc : ChargesInv s)
    (hz : ZonesUncommitted s) :
    ChargesInv (previewCommit s d).2 ∧ ZonesUncommitted (previewCommit s d).2 := by
  unfold previewCommit
  dsimp only
  repeat' split
  all_goals
    first
    | exact ⟨hc, hz⟩
    | exact ⟨consumeCharge_inv _ hc, consumeCharge_zonesInv _ hz⟩
    | exact ⟨commitFinish_charges (dispatch_charges _ _ _ _ _ (consumeCharge_inv _ hc)),
        commitFinish_zones (dispatch_zones _ _ _ _ _ (consumeCharge_zonesInv _ hz))⟩
    | exact ⟨dispatch_charges _ _ _ _ _ (consumeCharge_inv _ hc),
        dispatch_zones _ _ _ _ _ (consumeCharge_zonesInv _ hz)⟩

theorem superValidateMove_inv {s : GameState} (d : Int × Int) (sim : Bool)
    (src : Option SqKey) (pc : Kind) (hc : ChargesInv s) (hz : ZonesUncommitted s) :
    ChargesInv (superValidateMove s d sim src pc).2 ∧
      ZonesUncommitted (superValidateMove s d sim src pc).2 := by
  unfold superValidateMove
  split
  · exact previewCommit_inv d hc hz
  · split
    · exact normalMove_inv d sim src pc hc hz
    · obtain ⟨b, hm, cap, lm, tw, pcnt, h⟩ := chessValidateMove_shape s d sim src pc
      rw [h]
      exact ⟨hc, hz⟩

theorem applySuperMoveSimulate_shape (s : GameState) (sf sr : Nat) (d : Int × Int) :
    ∃ b cap zs,
      (applySuperMoveSimulate s sf sr d).2 =
        { s with board := b, captured := cap, fortressZones := zs } ∧
      (ZonesUncommitted s → ∀ z ∈ zs, z.committed = false) := by
  unfold applySuperMoveSimulate
  dsimp only
  repeat' split
  all_goals
    first
    | exact ⟨_, _, _, rfl, fun h => h⟩
    | (refine ⟨_, _, _, rfl, fun h z hzm => ?_⟩
       rcases List.mem_append.mp hzm with h1 | h2
       · exact h z h1
       · simp only [List.mem_singleton] at h2
         rw [h2])

/-- The toggle-preview simulation loop only lets the captured list and the
    fortress-zone list escape: board, has-moved and last-move are restored from
    the backups, and no zone it appends is committed. -/
theorem previewFold_inv (s : GameState) (sf sr : Nat) (color : Color) :
    ∀ (l : List (Int × Int)) (acc : List (Int × Int) × GameState),
      (∃ cap zs, acc.2 = { s with captured := cap, fortressZones := zs } ∧
        (ZonesUncommitted s → ∀ z ∈ zs, z.committed = false)) →
      ∃ cap zs,
        (List.foldl (previewSimStep sf sr color s.board s.hasMoved s.lastMove) acc l).2 =
          { s with captured := cap, fortressZones := zs } ∧
        (ZonesUncommitted s → ∀ z ∈ zs, z.committed = false) := by
  intro l
  induction l with
  | nil => intro acc hacc; exact hacc
  | cons a t ih =>
    intro acc hacc
    rw [List.foldl_cons]
    apply ih
    obtain ⟨cap, zs, hacc2, hzs⟩ := hacc
    obtain ⟨b', cap', zs', hsh, hzs'⟩ :=
      applySuperMoveSimulate_shape acc.2 sf sr a
    have hres : (previewSimStep sf sr color s.board s.hasMoved s.lastMove acc a).2 =
        { s with captured := cap', fortressZones := zs' } := by
      unfold previewSimStep
      dsimp only
      rw [hsh, hacc2]
    refine ⟨cap', zs', hres, fun hz => hzs' ?_⟩
    rw [hacc2]
    exact hzs hz

theorem clearPreviewFull_previewing (s : GameState) :
    (clearPreviewFull s).previewing = false := rfl

/-- `toggle_preview` can change only the preview bookkeeping, the highlighted
    moves, the captured list (pawn-sacrifice simulation) and the fortress-zone
    list (rook simulation); every zone it appends is uncommitted. -/
theorem superTogglePreview_frame (s : GameState) (color : Color) :
    ∃ cap zs mvs pm psrc psel ppn pact pv,
      superTogglePreview s color =
        { s with captured := cap, fortressZones := zs, moves := mvs, previewing := pv,
                 powerPreviewActive := pact, previewMoves := pm, previewSource := psrc,
                 previewSelected := psel, powerPreviewName := ppn } ∧
      (ZonesUncommitted s → ∀ z ∈ zs, z.committed = false) := by
  unfold superTogglePreview
  dsimp only
  split
  · -- cancel branch
    split
    · split
      · rename_i pv f r hfind o p hp
        have hsnd := superLegalMovesFor_snd (clearPreviewFull s) p (frToXY f r)
          (by rw [clearPreviewFull_previewing]; simp)
        rw [hsnd]
        exact ⟨_, _, _, _, _, _, _, _, _, rfl, fun h => h⟩
      · exact ⟨_, _, _, _, _, _, _, _, _, rfl, fun h => h⟩
    · exact ⟨_, _, _, _, _, _, _, _, _, rfl, fun h => h⟩
  · -- start branch
    split
    · exact ⟨_, _, _, _, _, _, _, _, _, rfl, fun h => h⟩
    · split
      · exact ⟨_, _, _, _, _, _, _, _, _, rfl, fun h => h⟩
      · split
        · exact ⟨_, _, _, _, _, _, _, _, _, rfl, fun h => h⟩
        · split
          · exact ⟨_, _, _, _, _, _, _, _, _, rfl, fun h => h⟩
          · split
            · exact ⟨_, _, _, _, _, _, _, _, _, rfl, fun h => h⟩
            · -- simulation fold ran
              rename_i sf sr hfind o p hp hcol hch hraw
              obtain ⟨cap, zs, hfold, hzs⟩ := previewFold_inv s sf sr color _ ([], s)
                ⟨s.captured, s.fortressZones, rfl, fun h => h⟩
              split
              · rw [hfold]
                exact ⟨cap, zs, _, _, _, _, _, _, _, rfl, hzs⟩
              · rw [hfold]
                exact ⟨cap, zs, _, _, _, _, _, _, _, rfl, hzs⟩

/-- Combined engine invariant used for the reachability results. -/
def Inv (s : GameState) : Prop := ChargesInv s ∧ ZonesUncommitted s

theorem inv_superValidateMove {s : GameState} (d : Int × Int) (sim : Bool)
    (src : Option SqKey) (pc : Kind) (h : Inv s) : Inv (superValidateMove s d sim src pc).2 :=
  superValidateMove_inv d sim src pc h.1 h.2

theorem legalSimStep_inv (color : Color) (src : SqKey) :
    ∀ (acc : List (Int × Int) × GameState) (d : Int × Int), Inv acc.2 →
      Inv (legalSimStep (fun s' d' sim srcO => superValidateMove s' d' sim srcO Kind.queen)
        color src acc d).2 := by
  intro acc d h
  have hsv := superValidateMove_inv (s := acc.2) d true (some src) Kind.queen h.1 h.2
  exact ⟨hsv.1, hsv.2⟩

theorem superLegalMovesFor_inv {s : GameState} (p : Piece) (coord : Int × Int)
    (h : Inv s) : Inv (superLegalMovesFor s p coord).2 := by
  unfold superLegalMovesFor chessLegalMovesForWith
  dsimp only
  exact foldl_snd_inv _ Inv (fun acc a => legalSimStep_inv p.color _ acc a) _ ([], s) h

theorem hasLegalStep_inv (c : Color) :
    ∀ (acc : Bool × GameState) (fr : SqKey), Inv acc.2 → Inv (hasLegalStep c acc fr).2 := by
  intro acc fr h
  unfold hasLegalStep
  dsimp only
  repeat' split
  all_goals first
    | exact h
    | exact superLegalMovesFor_inv _ _ h

theorem superHasLegalMoves_inv {s : GameState} (c : Color) (h : Inv s) :
    Inv (superHasLegalMoves s c).2 := by
  unfold superHasLegalMoves
  exact foldl_snd_inv _ Inv (hasLegalStep_inv c) _ (false, s) h

theorem threefoldCheck_inv {s : GameState} (h : Inv s) : Inv (threefoldCheck s) := by
  unfold threefoldCheck
  split
  · exact h
  · exact h

theorem Inv_of_fields {X Y : GameState} (hw : Y.wCharges = X.wCharges)
    (hb : Y.bCharges = X.bCharges) (hz : Y.fortressZones = X.fortressZones)
    (h : Inv X) : Inv Y := by
  obtain ⟨⟨c1, c2, c3, c4⟩, hzz⟩ := h
  refine ⟨⟨?_, ?_, ?_, ?_⟩, fun z hzm => ?_⟩
  · rw [hw]; exact c1
  · rw [hw]; exact c2
  · rw [hb]; exact c3
  · rw [hb]; exact c4
  · rw [hz] at hzm; exact hzz z hzm

theorem afterMoveChecks_inv {s : GameState} (t : Color) (h : Inv s) :
    Inv (afterMoveChecks s t) := by
  have h1 := superHasLegalMoves_inv (s := s) t.other h
  have h2 := superHasLegalMoves_inv (s := (superHasLegalMoves s t.other).2) t.other h1
  unfold afterMoveChecks
  dsimp only
  split
  · split
    · exact Inv_of_fields rfl rfl rfl h1
    · split
      · split
        · exact Inv_of_fields rfl rfl rfl h2
        · exact threefoldCheck_inv h2
      · exact threefoldCheck_inv h1
  · split
    · exact Inv_of_fields rfl rfl rfl h1
    · exact threefoldCheck_inv h1

theorem superMovePiece_inv {s : GameState} (t : Color) (clicked : Option SqKey)
    (pc : Kind) (h : Inv s) : Inv (superMovePiece s t clicked pc) := by
  unfold superMovePiece
  dsimp only
  repeat' split
  all_goals first
    | exact h
    | exact afterMoveChecks_inv _ (Inv_of_fields rfl rfl rfl (inv_superValidateMove _ _ _ _ h))
    | exact Inv_of_fields rfl rfl rfl (inv_superValidateMove _ _ _ _ h)
    | exact Inv_of_fields rfl rfl rfl (superLegalMovesFor_inv _ _ h)

theorem superTogglePreview_inv {s : GameState} (c : Color) (h : Inv s) :
    Inv (superTogglePreview s c) := by
  obtain ⟨cap, zs, mvs, pm, psrc, psel, ppn, pact, pv, hsh, hzs⟩ :=
    superTogglePreview_frame s c
  rw [hsh]
  exact ⟨h.1, hzs h.2⟩

theorem superStartPowerPreview_inv {s : GameState} (h : Inv s) :
    Inv (superStartPowerPreview s) := by
  unfold superStartPowerPreview
  dsimp only
  repeat' split
  all_goals first
    | exact h
    | exact superTogglePreview_inv _ h

theorem cancelPowerPreview_inv {s : GameState} (h : Inv s) :
    Inv (cancelPowerPreview s) := by
  refine ⟨h.1, fun z hz => ?_⟩
  exact h.2 z (List.mem_filter.mp hz).1

theorem resetState_inv : Inv resetState := by
  refine ⟨⟨by decide, by decide, by decide, by decide⟩, fun z hz => ?_⟩
  simp only [resetState, resetBase] at hz
  exact absurd hz (List.not_mem_nil z)

theorem resetFrom_inv (s : GameState) : Inv (resetFrom s) :=
  ⟨resetState_inv.1, resetState_inv.2⟩

/-- One externally triggered engine transition: a `validate_move` call (real or
    simulated, including power commits), a `move_piece` interaction, preview
    toggling / starting / cancelling, a selection-flag change, an externally
    assigned outcome (clock or material-counter writing `winner`), the AI's
    auto-promote toggle and direct preview-state setup (`ai_move`), or a reset. -/
inductive Step : GameState → GameState → Prop where
  | move (s : GameState) (dest : Int × Int) (sim : Bool) (src : Option SqKey) (pc : Kind) :
      Step s (superValidateMove s dest sim src pc).2
  | movePiece (s : GameState) (t : Color) (clicked : Option SqKey) (pc : Kind) :
      Step s (superMovePiece s t clicked pc)
  | toggle (s : GameState) (c : Color) : Step s (superTogglePreview s c)
  | startPreview (s : GameState) : Step s (superStartPowerPreview s)
  | cancel (s : GameState) : Step s (cancelPowerPreview s)
  | select (s : GameState) (f r : Nat) (v : Bool) :
      Step s { s with board := setSelFR s.board f r v }
  | setWinner (s : GameState) (w : String) : Step s { s with winner := w }
  | setAutoPromote (s : GameState) (v : Bool) : Step s { s with aiAutoPromote := v }
  | setPreviewState (s : GameState) (pm : List (Int × Int)) (src : SqKey)
      (pn : Option String) :
      Step s { s with previewing := true, powerPreviewActive := true, previewMoves := pm,
                      previewSource := some src, powerPreviewName := pn }
  | reset (s : GameState) : Step s (resetFrom s)

/-- Engine states reachable from `reset` through any sequence of transitions. -/
inductive Reachable : GameState → Prop where
  | init : Reachable resetState
  | step {s s' : GameState} : Reachable s → Step s s' → Reachable s'

theorem reachable_inv {s : GameState} (h : Reachable s) : Inv s := by
  induction h with
  | init => exact resetState_inv
  | step _ hstep ih =>
    cases hstep with
    | move d sim src pc => exact inv_superValidateMove d sim src pc ih
    | movePiece t clicked pc => exact superMovePiece_inv t clicked pc ih
    | toggle c => exact superTogglePreview_inv c ih
    | startPreview => exact superStartPowerPreview_inv ih
    | cancel => exact cancelPowerPreview_inv ih
    | select f r v => exact ⟨ih.1, ih.2⟩
    | setWinner w => exact ⟨ih.1, ih.2⟩
    | setAutoPromote v => exact ⟨ih.1, ih.2⟩
    | setPreviewState pm src pn => exact ⟨ih.1, ih.2⟩
    | reset => exact resetFrom_inv _

/-! ### Claim theorems -/

def fileChars : List Char := ['a', 'b', 'c', 'd', 'e', 'f', 'g', 'h']

/-- Claim C9: for every file character in a..h and every rank in 1..8, converting
    the (file, rank) square to zero-based (x, y) board coordinates and back
    returns the original pair. -/
theorem C9_roundtrip (c : Char) (r : Int) (hc : c ∈ fileChars)
    (h1 : 1 ≤ r) (h8 : r ≤ 8) :
    xy_to_square (square_to_xy c r).1 (square_to_xy c r).2 = (c, r) := by
  unfold xy_to_square square_to_xy
  dsimp only
  fin_cases hc <;>
    exact Prod.ext_iff.mpr ⟨by rfl, by dsimp only; omega⟩

/-- Witness for C9 at the square e4. -/
theorem C9_roundtrip_witness :
    'e' ∈ fileChars ∧ (1 : Int) ≤ 4 ∧ (4 : Int) ≤ 8 ∧
      xy_to_square (square_to_xy 'e' 4).1 (square_to_xy 'e' 4).2 = ('e', 4) :=
  ⟨by decide, by norm_num, by norm_num,
    C9_roundtrip 'e' 4 (by decide) (by norm_num) (by norm_num)⟩

/-- Claim C8: in every state reachable from reset by any sequence of moves,
    power activations, preview interactions and resets, both charge counters
    stay within [0, 3]: the capture award is capped at 3 and consumption is
    guarded against going below 0. -/
theorem C8_charge_bounds {s : GameState} (h : Reachable s) :
    (0 ≤ getCharge s Color.white ∧ getCharge s Color.white ≤ 3) ∧
    (0 ≤ getCharge s Color.black ∧ getCharge s Color.black ≤ 3) := by
  obtain ⟨⟨c1, c2, c3, c4⟩, -⟩ := reachable_inv h
  exact ⟨⟨c1, c2⟩, ⟨c3, c4⟩⟩

/-- Witness for C8 in the reachable state after white's opening move e2-e4. -/
theorem C8_charge_bounds_witness :
    (0 ≤ getCharge (superValidateMove resetState (4, 4) false (some (4, 2)) Kind.queen).2
        Color.white ∧
      getCharge (superValidateMove resetState (4, 4) false (some (4, 2)) Kind.queen).2
        Color.white ≤ 3) ∧
    (0 ≤ getCharge (superValidateMove resetState (4, 4) false (some (4, 2)) Kind.queen).2
        Color.black ∧
      getCharge (superValidateMove resetState (4, 4) false (some (4, 2)) Kind.queen).2
        Color.black ≤ 3) :=
  C8_charge_bounds
    (Reachable.step Reachable.init (Step.move resetState (4, 4) false (some (4, 2)) Kind.queen))

/-- Claim C10: in every reachable state, every fortress zone carries
    `committed = false` (no code path ever writes that key, including committed
    fortress activations), so `cancel_power_preview` — which keeps only zones
    whose committed flag is true — always leaves the zone list empty. -/
theorem C10_cancel_clears_zones {s : GameState} (h : Reachable s) :
    (∀ z ∈ s.fortressZones, z.committed = false) ∧
    (cancelPowerPreview s).fortressZones =
      s.fortressZones.filter (fun z => z.committed) ∧
    (cancelPowerPreview s).fortressZones = [] := by
  obtain ⟨-, hz⟩ := reachable_inv h
  refine ⟨hz, rfl, ?_⟩
  unfold cancelPowerPreview
  dsimp only
  refine List.filter_eq_nil_iff.mpr fun z hzm => ?_
  rw [hz z hzm]
  simp

/-- Witness for C10 at the reset state. -/
theorem C10_cancel_clears_zones_witness :
    (∀ z ∈ resetState.fortressZones, z.committed = false) ∧
    (cancelPowerPreview resetState).fortressZones =
      resetState.fortressZones.filter (fun z => z.committed) ∧
    (cancelPowerPreview resetState).fortressZones = [] :=
  C10_cancel_clears_zones Reachable.init

/-- A reachable state with the outcome field externally set (the engine stores
    clock / material outcomes on the same `winner` field). -/
def c1State : GameState := { resetState with winner := "Checkmate" }

/-- Counterexample to claim C1: with `winner` non-empty, `validate_move` still
    executes white's pawn move e2-e4 — it returns true and flips the turn (and
    moves the pawn), so the move-execution entry point does not reject moves in
    terminal states. -/
theorem C1_counterexample :
    c1State.winner ≠ "" ∧
    (superValidateMove c1State (4, 4) false (some (4, 2)) Kind.queen).1 = true ∧
    (superValidateMove c1State (4, 4) false (some (4, 2)) Kind.queen).2.turnWhite = false ∧
    c1State.turnWhite = true ∧
    (getXY (superValidateMove c1State (4, 4) false (some (4, 2)) Kind.queen).2.board 4 4).piece =
      some ⟨Color.white, Kind.pawn⟩ ∧
    (getXY c1State.board 4 4).piece = none := by
  refine ⟨by decide, by decide, by decide, rfl, by decide, by decide⟩

/-- Claim C1 (amended): the terminal-state guard lives in the interaction layer,
    not in the move executor: once `winner` is non-empty, `move_piece` returns
    immediately with no state change, but `validate_move` itself performs no
    winner check and will still execute moves (see the counterexample). -/
theorem C1_amended (s : GameState) (turn : Color) (clicked : Option SqKey)
    (pc : Kind) (h : s.winner ≠ "") : superMovePiece s turn clicked pc = s := by
  unfold superMovePiece
  rw [if_pos h]

/-- Witness for the amended C1: a click on e2 in a finished game is a no-op. -/
theorem C1_amended_witness :
    c1State.winner ≠ "" ∧
    superMovePiece c1State Color.white (some (4, 2)) Kind.queen = c1State :=
  ⟨by decide, C1_amended c1State Color.white (some (4, 2)) Kind.queen (by decide)⟩

/-- The sixteen sorted subsets of "KQkq", plus "-" for no rights. -/
def validRightsStrings : List String :=
  ["-", "K", "Q", "k", "q", "KQ", "Kk", "Kq", "Qk", "Qq", "kq",
   "KQk", "KQq", "Kkq", "Qkq", "KQkq"]

def isFileCharB (c : Char) : Bool := 'a' ≤ c && c ≤ 'h'

def isRankCharB (c : Char) : Bool := '1' ≤ c && c ≤ '8'

def isEpStringB (t : String) : Bool :=
  t == "-" ||
    (match t.data with
     | [f, r] => isFileCharB f && isRankCharB r
     | _ => false)

/-- The position-key shape asserted by the spec: a 64-character board string,
    then "_", the side to move as w or b, "_", a sorted castling-rights subset of
    "KQkq" or "-", "_", and an en-passant target square or "-". -/
def specKeyFormat (k : String) : Bool :=
  match k.data.drop 64 with
  | '_' :: t :: '_' :: rest =>
    (t == 'w' || t == 'b') &&
      (match (String.mk rest).splitOn "_" with
       | [rights, ep] => decide (rights ∈ validRightsStrings) && isEpStringB ep
       | _ => false)
  | _ => false

/-- Counterexample to claim C6: already in the (reachable) reset state the key
    produced by `get_position_key` does not have the asserted shape — its board
    segment is built from full piece-name strings such as "white_rook", not from
    a 64-character encoding, so character 64 is not the first "_" separator. -/
theorem C6_counterexample :
    Reachable resetState ∧ specKeyFormat (getPositionKey resetState) = false :=
  ⟨Reachable.init, by decide⟩

/-- Claim C6 (amended): the key is the concatenation of 64 per-square entries in
    file-major order a1..a8, ..., h1..h8 — each entry the occupant's full piece
    name (e.g. "white_pawn") or "." for an empty square — followed by "_", the
    side to move as "w"/"b", "_", the castling-rights string (a sorted subset of
    "KQkq" or "-"), "_", and the en-passant segment. -/
theorem C6_amended (s : GameState) :
    getPositionKey s =
      String.join (positionBoardParts s) ++ "_" ++ (if s.turnWhite then "w" else "b") ++ "_" ++
        castlingRightsStr s ++ "_" ++ epTargetStr s ∧
    (positionBoardParts s).length = 64 ∧
    (∀ part ∈ positionBoardParts s, part = "." ∨ ∃ p : Piece, part = pieceName p) ∧
    castlingRightsStr s ∈ validRightsStrings := by
  refine ⟨rfl, ?_, ?_, ?_⟩
  · unfold positionBoardParts
    rw [List.length_map]
    rfl
  · intro part hp
    obtain ⟨fr, hfr, hpart⟩ := List.mem_map.mp hp
    cases hcell : (getFR s.board fr.1 fr.2).piece with
    | some p =>
      right
      refine ⟨p, ?_⟩
      rw [← hpart]
      simp [hcell]
    | none =>
      left
      rw [← hpart]
      simp [hcell]
  · unfold castlingRightsStr
    dsimp only
    repeat' split
    all_goals first
      | decide
      | (rename_i hne; exact absurd rfl hne)

def emptyBoard : Board := (List.range 64).map fun _ => emptyCell

/-- White king e1 and rook h1 (both unmoved), f1/g1 empty and unattacked, but a
    black rook on e8 gives check along the open e-file. -/
def c5Board : Board :=
  setPieceFR (setPieceFR (setPieceFR (setPieceFR emptyBoard 4 1
    (some ⟨Color.white, Kind.king⟩)) 7 1 (some ⟨Color.white, Kind.rook⟩)) 4 8
    (some ⟨Color.black, Kind.rook⟩)) 0 8 (some ⟨Color.black, Kind.king⟩)

def c5State : GameState :=
  { resetState with board := c5Board, hasMoved := [((4, 1), false), ((7, 1), false)] }

/-- Counterexample to claim C5: the generator offers the king-side castling
    destination g1 although the king's current square e1 is attacked (the king
    is in check) — only the passed-through and destination squares are tested. -/
theorem C5_counterexample :
    castlingMoves c5State Color.white 4 7 = [(6, 7)] ∧
    isSquareAttacked c5State Color.white (4, 7) = true ∧
    isInCheck c5State Color.white = true := by
  refine ⟨by decide, by decide, by decide⟩

/-- Claim C5 (amended): a castling destination is offered exactly when the king
    and the matching rook are unmoved, the squares strictly between them are
    empty, and neither the square the king passes through nor its destination
    square is attacked — the king's *current* square is not attack-tested by the
    generator (castling out of check is not excluded there). -/
theorem C5_amended (s : GameState) (c : Color) (x y : Int) :
    (((6 : Int), (if c = Color.black then (0 : Int) else 7)) ∈ castlingMoves s c x y ↔
      (¬ hmGet s.hasMoved (x.toNat, if c = Color.black then 8 else 1) true = true ∧
       (getFR s.board 7 (if c = Color.black then 8 else 1)).piece = some ⟨c, Kind.rook⟩ ∧
       ¬ hmGet s.hasMoved (7, if c = Color.black then 8 else 1) true = true ∧
       (getFR s.board 5 (if c = Color.black then 8 else 1)).piece = none ∧
       (getFR s.board 6 (if c = Color.black then 8 else 1)).piece = none ∧
       ¬ isSquareAttacked s c (5, if c = Color.black then 0 else 7) = true ∧
       ¬ isSquareAttacked s c (6, if c = Color.black then 0 else 7) = true)) ∧
    (((2 : Int), (if c = Color.black then (0 : Int) else 7)) ∈ castlingMoves s c x y ↔
      (¬ hmGet s.hasMoved (x.toNat, if c = Color.black then 8 else 1) true = true ∧
       (getFR s.board 0 (if c = Color.black then 8 else 1)).piece = some ⟨c, Kind.rook⟩ ∧
       ¬ hmGet s.hasMoved (0, if c = Color.black then 8 else 1) true = true ∧
       (getFR s.board 1 (if c = Color.black then 8 else 1)).piece = none ∧
       (getFR s.board 2 (if c = Color.black then 8 else 1)).piece = none ∧
       (getFR s.board 3 (if c = Color.black then 8 else 1)).piece = none ∧
       ¬ isSquareAttacked s c (3, if c = Color.black then 0 else 7) = true ∧
       ¬ isSquareAttacked s c (2, if c = Color.black then 0 else 7) = true)) := by
  cases c
  · constructor <;>
      · unfold castlingMoves
        simp only [reduceCtorEq, if_false, ite_false]
        split_ifs <;> simp_all [List.mem_append, Prod.ext_iff] <;> tauto
  · constructor <;>
      · unfold castlingMoves
        simp only [reduceCtorEq, if_true, ite_true]
        split_ifs <;> simp_all [List.mem_append, Prod.ext_iff] <;> tauto

/-- Counterexample to claim C7: a destination that is not a legal candidate is
    not rejected by `validate_move`.  From the reset position the white rook on
    a1 has no legal moves at all, yet `validate_move` to a5 returns true and
    teleports the rook over its own pawn. -/
theorem C7_counterexample :
    (getFR resetState.board 0 1).piece = some ⟨Color.white, Kind.rook⟩ ∧
    (0, 3) ∉ (superLegalMovesFor resetState ⟨Color.white, Kind.rook⟩ (0, 7)).1 ∧
    (superValidateMove resetState (0, 3) false (some (0, 1)) Kind.queen).1 = true ∧
    (getXY (superValidateMove resetState (0, 3) false (some (0, 1)) Kind.queen).2.board
      0 3).piece = some ⟨Color.white, Kind.rook⟩ := by
  refine ⟨by decide, by decide, by decide, by decide⟩

/-- Claim C7 (amended): rejections that do occur are clean on the durable state:
    (i) a move from an empty source square returns false with the state fully
    unchanged; a power commit onto a square outside the preview candidates (ii),
    with zero charges (iii), or onto a target failing the ability re-check (iv)
    returns false and leaves board, captured list, charges, turn, has-moved
    flags, last-move, repetition table, fortress zones and winner unchanged,
    clearing only the transient preview state; but ordinary-move destination
    candidacy is enforced by the selection UI (`move_piece`), not by
    `validate_move`, which executes any destination for a present source piece
    (see the counterexample). -/
theorem C7_amended (s : GameState) (d : Int × Int) (sim : Bool) (f r : Nat)
    (src : Option SqKey) (pc : Kind) (sf sr : Nat) (p : Piece) :
    ((clearPreviewFull s).board = s.board ∧ (clearPreviewFull s).captured = s.captured ∧
     (clearPreviewFull s).wCharges = s.wCharges ∧ (clearPreviewFull s).bCharges = s.bCharges ∧
     (clearPreviewFull s).turnWhite = s.turnWhite ∧ (clearPreviewFull s).hasMoved = s.hasMoved ∧
     (clearPreviewFull s).lastMove = s.lastMove ∧
     (clearPreviewFull s).positionCounts = s.positionCounts ∧
     (clearPreviewFull s).fortressZones = s.fortressZones ∧
     (clearPreviewFull s).winner = s.winner ∧ (clearPreviewFull s).previewMoves = []) ∧
    (¬ (s.previewing = true ∧ s.powerPreviewActive = true) →
      (getFR s.board f r).piece = none →
      superValidateMove s d sim (some (f, r)) pc = (false, s)) ∧
    (s.previewing = true → s.powerPreviewActive = true →
      s.previewSource = some (sf, sr) → d ∉ s.previewMoves →
      superValidateMove s d sim src pc = (false, clearPreviewFull s)) ∧
    (s.previewing = true → s.powerPreviewActive = true →
      s.previewSource = some (sf, sr) → d ∈ s.previewMoves →
      (getFR s.board sf sr).piece = some p → getCharge s p.color ≤ 0 →
      superValidateMove s d sim src pc = (false, clearPreviewFull s)) ∧
    (s.previewing = true → s.powerPreviewActive = true →
      s.previewSource = some (sf, sr) → d ∈ s.previewMoves →
      (getFR s.board sf sr).piece = some p → 0 < getCharge s p.color →
      canActivatePower s sf sr s.powerPreviewName d.1 d.2 = false →
      superValidateMove s d sim src pc = (false, clearPreviewFull s)) := by
  refine ⟨⟨rfl, rfl, rfl, rfl, rfl, rfl, rfl, rfl, rfl, rfl, rfl⟩, ?_, ?_, ?_, ?_⟩
  · intro hna hempty
    unfold superValidateMove
    split
    · rename_i hpa; exact absurd hpa hna
    · split
      · unfold normalMove
        dsimp only
        rw [hempty]
        split
        · rename_i hblocked
          simp at hblocked
        · unfold chessValidateMove
          dsimp only
          rw [hempty]
          simp
      · unfold chessValidateMove
        dsimp only
        rw [hempty]
  · intro h1 h2 hsrc hmem
    unfold superValidateMove
    rw [if_pos ⟨h1, h2⟩]
    unfold previewCommit
    dsimp only
    rw [hsrc]
    dsimp only
    rw [if_pos hmem]
  · intro h1 h2 hsrc hmem hpiece hch
    unfold superValidateMove
    rw [if_pos ⟨h1, h2⟩]
    unfold previewCommit
    dsimp only
    rw [hsrc]
    dsimp only
    rw [if_neg (not_not_intro hmem), hpiece]
    dsimp only
    rw [if_pos hch]
  · intro h1 h2 hsrc hmem hpiece hch hact
    unfold superValidateMove
    rw [if_pos ⟨h1, h2⟩]
    unfold previewCommit
    dsimp only
    rw [hsrc]
    dsimp only
    rw [if_neg (not_not_intro hmem), hpiece]
    dsimp only
    rw [if_neg (by omega : ¬ getCharge s p.color ≤ 0),
      if_pos (by rw [hact]; decide : ¬ canActivatePower s sf sr s.powerPreviewName d.1 d.2 = true)]

def c7wA : GameState :=
  { resetState with
    previewing := true, powerPreviewActive := true,
    previewSource := some (0, 1), previewMoves := [] }

def c7wB : GameState :=
  { resetState with
    previewing := true, powerPreviewActive := true,
    previewSource := some (0, 1), previewMoves := [(0, 3)], wCharges := 0 }

def c7wC : GameState :=
  { resetState with
    previewing := true, powerPreviewActive := true,
    previewSource := some (0, 1), previewMoves := [(0, 3)], wCharges := 1,
    powerPreviewName := some "royal_teleport" }

theorem C7_amended_witness :
    superValidateMove resetState (3, 4) false (some (3, 3)) Kind.queen = (false, resetState) ∧
    superValidateMove c7wA (0, 3) false none Kind.queen = (false, clearPreviewFull c7wA) ∧
    superValidateMove c7wB (0, 3) false none Kind.queen = (false, clearPreviewFull c7wB) ∧
    superValidateMove c7wC (0, 3) false none Kind.queen = (false, clearPreviewFull c7wC) :=
  ⟨(C7_amended resetState (3, 4) false 3 3 (some (3, 3)) Kind.queen 0 0
      ⟨Color.white, Kind.rook⟩).2.1 (by decide) (by decide),
   (C7_amended c7wA (0, 3) false 0 0 none Kind.queen 0 1
      ⟨Color.white, Kind.rook⟩).2.2.1 rfl rfl rfl (by decide),
   (C7_amended c7wB (0, 3) false 0 0 none Kind.queen 0 1
      ⟨Color.white, Kind.rook⟩).2.2.2.1 rfl rfl rfl (by decide) (by decide) (by decide),
   (C7_amended c7wC (0, 3) false 0 0 none Kind.queen 0 1
      ⟨Color.white, Kind.rook⟩).2.2.2.2 rfl rfl rfl (by decide) (by decide) (by decide)
      (by decide)⟩

def c2State : GameState :=
  { resetState with wCharges := 1, board := setSelFR resetState.board 0 1 true }

/-- Counterexample to claim C2: the superpower preview simulation is not pure.
    With the a1 rook selected and one charge available, `toggle_preview`
    restores the board but each simulated fortress-field activation appends a
    zone to `fortress_zones` that the restore never removes; the zones survive
    even after the preview is toggled off again. -/
theorem C2_counterexample :
    c2State.fortressZones = [] ∧
    (superTogglePreview c2State Color.white).board = c2State.board ∧
    (superTogglePreview c2State Color.white).fortressZones ≠ [] ∧
    (superTogglePreview (superTogglePreview c2State Color.white) Color.white).previewing
      = false ∧
    (superTogglePreview (superTogglePreview c2State Color.white) Color.white).fortressZones
      ≠ [] := by
  refine ⟨rfl, by decide, by decide, by decide, by decide⟩

/-- Claim C2 (amended): the ordinary-move legality simulation is pure — running
    `legal_moves_for` (simulate-validate each candidate, then restore) outside
    an active power preview returns the state exactly equal to the input; and
    the superpower preview simulation in `toggle_preview` restores exactly the
    three fields it backs up — board occupancy, has-moved flags and the
    last-move record — and also preserves the repetition table, charges, turn
    and winner, but not the captured list or the fortress zones (see the
    counterexample for the zone leak). -/
theorem C2_amended (s : GameState) (p : Piece) (coord : Int × Int) (color : Color) :
    (¬ (s.previewing = true ∧ s.powerPreviewActive = true) →
      (superLegalMovesFor s p coord).2 = s) ∧
    ((superTogglePreview s color).board = s.board ∧
     (superTogglePreview s color).hasMoved = s.hasMoved ∧
     (superTogglePreview s color).lastMove = s.lastMove ∧
     (superTogglePreview s color).positionCounts = s.positionCounts ∧
     (superTogglePreview s color).wCharges = s.wCharges ∧
     (superTogglePreview s color).bCharges = s.bCharges ∧
     (superTogglePreview s color).turnWhite = s.turnWhite ∧
     (superTogglePreview s color).winner = s.winner) := by
  constructor
  · exact fun h => superLegalMovesFor_snd s p coord h
  · obtain ⟨cap, zs, mvs, pm, psrc, psel, ppn, pact, pv, heq, -⟩ :=
      superTogglePreview_frame s color
    rw [heq]
    exact ⟨rfl, rfl, rfl, rfl, rfl, rfl, rfl, rfl⟩

theorem C2_amended_witness :
    (superLegalMovesFor resetState ⟨Color.white, Kind.knight⟩ (frToXY 6 1)).2 = resetState ∧
    (superTogglePreview c2State Color.white).board = c2State.board ∧
    (superTogglePreview c2State Color.white).hasMoved = c2State.hasMoved ∧
    (superTogglePreview c2State Color.white).wCharges = c2State.wCharges :=
  ⟨(C2_amended resetState ⟨Color.white, Kind.knight⟩ (frToXY 6 1) Color.white).1 (by decide),
   (C2_amended c2State ⟨Color.white, Kind.rook⟩ (frToXY 0 1) Color.white).2.1,
   (C2_amended c2State ⟨Color.white, Kind.rook⟩ (frToXY 0 1) Color.white).2.2.1,
   (C2_amended c2State ⟨Color.white, Kind.rook⟩ (frToXY 0 1) Color.white).2.2.2.2.2.1⟩

theorem setCharge_board (s : GameState) (c : Color) (v : Int) :
    (setCharge s c v).board = s.board := by
  cases c <;> rfl

/-- Evaluation of a committed fortress-field activation: the zone is appended
    with TTL 2 and the commit's own expiry sweep immediately decrements it. -/
theorem previewCommit_fortress (s : GameState) (d : Int × Int) (sf sr : Nat) (p : Piece)
    (hsrc : s.previewSource = some (sf, sr))
    (hmem : d ∈ s.previewMoves)
    (hpiece : (getFR s.board sf sr).piece = some p)
    (hkind : p.kind = Kind.rook)
    (hch : 0 < getCharge s p.color)
    (hname : s.powerPreviewName = some "fortress_field") :
    (previewCommit s d).1 = true ∧
    (previewCommit s d).2.fortressZones =
      expireFortressZones (s.fortressZones ++ [⟨p.color, zoneSquares d.1 d.2, 2, false⟩]) ∧
    (previewCommit s d).2.previewing = false := by
  unfold previewCommit
  dsimp only
  rw [hsrc]
  dsimp only
  rw [if_neg (not_not_intro hmem), hpiece]
  dsimp only
  rw [if_neg (by omega : ¬ getCharge s p.color ≤ 0)]
  have hca : canActivatePower s sf sr s.powerPreviewName d.1 d.2 = true := by
    unfold canActivatePower
    rw [hname, hpiece]
    simp
  rw [if_neg (by rw [hca]; decide :
    ¬ ¬ canActivatePower s sf sr s.powerPreviewName d.1 d.2 = true)]
  have hcr : consumeCharge s p.color =
      (true, setCharge s p.color (getCharge s p.color - 1)) := by
    unfold consumeCharge
    rw [if_neg (by omega : ¬ getCharge s p.color ≤ 0)]
  rw [hcr]
  dsimp only
  rw [if_neg (by decide : ¬ ¬ true = true)]
  have har : activateDispatch (setCharge s p.color (getCharge s p.color - 1))
      s.powerPreviewName sf sr d.1 d.2 =
      (true,
        { setCharge s p.color (getCharge s p.color - 1) with
          fortressZones := (setCharge s p.color (getCharge s p.color - 1)).fortressZones ++
            [⟨p.color, zoneSquares d.1 d.2, 2, false⟩]
          turnWhite := ¬ (setCharge s p.color (getCharge s p.color - 1)).turnWhite
          lastMoveMeta := some
            { mtype := "fortress_field", msrc := some (sf, sr), mdst := some (d.1, d.2),
              mpiece := some p, mcaptured := [], consumedCharge := true } }) := by
    unfold activateDispatch
    rw [hname]
    simp only [Option.some.injEq, String.reduceEq, if_false, if_true, ite_false, ite_true]
    unfold activateFortressField
    rw [setCharge_board, hpiece]
    dsimp only
    rw [if_neg (not_not_intro hkind)]
  rw [har]
  dsimp only
  refine ⟨rfl, ?_, rfl⟩
  show expireFortressZones ((setCharge s p.color (getCharge s p.color - 1)).fortressZones ++
    [⟨p.color, zoneSquares d.1 d.2, 2, false⟩]) = _
  rw [setCharge_zones]

/-- A successful non-simulated ordinary move runs one fortress expiry sweep. -/
theorem normalMove_zones_of_ok (s : GameState) (d : Int × Int) (src : Option SqKey)
    (pc : Kind) :
    (normalMove s d false src pc).1 = true →
    (normalMove s d false src pc).2.fortressZones = expireFortressZones s.fortressZones := by
  obtain ⟨b, hm, cap, lm, tw, pcnt, hshape⟩ := chessValidateMove_shape s d false src pc
  unfold normalMove
  dsimp only
  split
  · intro hok
    exact Bool.noConfusion hok
  · split
    · intro _
      rw [hshape]
      split
      · split
        · cases tw <;> rfl
        · rfl
      · rfl
    · rename_i hcond
      intro hok
      exact absurd ⟨hok, by decide⟩ hcond

def s3c : GameState :=
  { resetState with
    turnWhite := false, bCharges := 1, previewing := true, powerPreviewActive := true,
    previewMoves := [(7, 0)], previewSource := some (7, 8),
    powerPreviewName := some "fortress_field" }

/-- Counterexample to claim C3: committing a fortress field (black rook on h8,
    zone centred on h8) leaves the zone already at TTL 1 — the commit's own
    expiry sweep counts the activation itself — and the zone is gone after just
    one subsequent half-move (white's e2-e4), not two. -/
theorem C3_counterexample :
    (superValidateMove s3c (7, 0) false none Kind.queen).1 = true ∧
    (superValidateMove s3c (7, 0) false none Kind.queen).2.fortressZones =
      [⟨Color.black, [(6, 0), (6, 1), (7, 0), (7, 1)], 1, false⟩] ∧
    (superValidateMove (superValidateMove s3c (7, 0) false none Kind.queen).2
      (4, 4) false (some (4, 2)) Kind.queen).1 = true ∧
    (superValidateMove (superValidateMove s3c (7, 0) false none Kind.queen).2
      (4, 4) false (some (4, 2)) Kind.queen).2.fortressZones = [] := by
  refine ⟨by decide, by decide, by decide, by decide⟩

/-- Claim C3 (amended): a committed fortress_field activation appends a zone
    with TTL 2, but the commit immediately runs the expiry sweep, so the
    activation itself consumes the first of the two half-moves and the stored
    TTL is 1; while a zone is on the list, every ordinary legal move the
    generator offers to a piece of the other color avoids all of the zone's
    squares; and each successful non-simulated ordinary move runs one further
    expiry sweep, so the zone is absent after one subsequent half-move (two
    half-moves counting the activation). -/
theorem C3_amended (s : GameState) (d : Int × Int) (sim : Bool) (src : Option SqKey)
    (pc : Kind) (sf sr : Nat) (p : Piece)
    (s' : GameState) (p' : Piece) (coord d' : Int × Int)
    (s2 : GameState) (d2 : Int × Int) (src2 : Option SqKey) (pc2 : Kind) :
    (s.previewing = true → s.powerPreviewActive = true →
      s.previewSource = some (sf, sr) → d ∈ s.previewMoves →
      (getFR s.board sf sr).piece = some p → p.kind = Kind.rook →
      0 < getCharge s p.color → s.powerPreviewName = some "fortress_field" →
      (superValidateMove s d sim src pc).1 = true ∧
      (superValidateMove s d sim src pc).2.fortressZones =
        expireFortressZones
          (s.fortressZones ++ [⟨p.color, zoneSquares d.1 d.2, 2, false⟩]) ∧
      (superValidateMove s d sim src pc).2.previewing = false) ∧
    (¬ (s'.previewing = true ∧ s'.powerPreviewActive = true) →
      d' ∈ (superLegalMovesFor s' p' coord).1 →
      ∀ z ∈ s'.fortressZones, z.owner ≠ p'.color → d' ∉ z.squares) ∧
    (s2.previewing = false →
      (superValidateMove s2 d2 false src2 pc2).1 = true →
      (superValidateMove s2 d2 false src2 pc2).2.fortressZones =
        expireFortressZones s2.fortressZones) := by
  refine ⟨?_, ?_, ?_⟩
  · intro h1 h2 hsrc hmem hpiece hkind hch hname
    unfold superValidateMove
    rw [if_pos ⟨h1, h2⟩]
    exact previewCommit_fortress s d sf sr p hsrc hmem hpiece hkind hch hname
  · intro hna hmem z hz hown hdz
    unfold superLegalMovesFor at hmem
    dsimp only at hmem
    rw [chessLegalMovesForWith_snd _ s' p' coord
      (fun dd ss => superValidateMove_sim_shape s' dd ss Kind.queen hna)] at hmem
    have hmem2 : d' ∈ (if s'.fortressZones ≠ [] then
        (chessLegalMovesForWith
          (fun s'' dd sim src => superValidateMove s'' dd sim src Kind.queen)
          s' p' coord).1.filter fun dd =>
            ¬ (s'.fortressZones.any fun zz =>
              zz.owner ≠ p'.color && decide (dd ∈ zz.squares)) = true
      else (chessLegalMovesForWith
          (fun s'' dd sim src => superValidateMove s'' dd sim src Kind.queen)
          s' p' coord).1) := by
      split at hmem
      · exact List.mem_of_mem_filter hmem
      · exact hmem
    split at hmem2
    · have hpred := List.of_mem_filter hmem2
      have hany : ¬ (s'.fortressZones.any fun zz =>
          zz.owner ≠ p'.color && decide (d' ∈ zz.squares)) = true :=
        of_decide_eq_true hpred
      exact hany (List.any_eq_true.mpr ⟨z, hz, by
        rw [Bool.and_eq_true]
        exact ⟨decide_eq_true hown, decide_eq_true hdz⟩⟩)
    · rename_i hzs
      rw [not_not] at hzs
      rw [hzs] at hz
      exact absurd hz (List.not_mem_nil z)
  · intro hnp hok
    unfold superValidateMove at hok ⊢
    rw [if_neg (fun hpa => by rw [hnp] at hpa; exact absurd hpa.1 (by decide)),
      if_pos (by rw [hnp]; decide : ¬ s2.previewing = true)] at hok ⊢
    exact normalMove_zones_of_ok s2 d2 src2 pc2 hok

def s3d : GameState :=
  { resetState with fortressZones := [⟨Color.black, [((0 : Int), (4 : Int))], 1, false⟩] }

theorem C3_amended_witness :
    (superValidateMove s3c (7, 0) false none Kind.queen).2.previewing = false ∧
    ((0 : Int), (5 : Int)) ∉
      (⟨Color.black, [((0 : Int), (4 : Int))], 1, false⟩ : Zone).squares ∧
    (superValidateMove resetState (4, 4) false (some (4, 2)) Kind.queen).2.fortressZones =
      expireFortressZones resetState.fortressZones :=
  ⟨((C3_amended s3c (7, 0) false none Kind.queen 7 8 ⟨Color.black, Kind.rook⟩
      s3d ⟨Color.white, Kind.pawn⟩ (0, 6) (0, 5) resetState (4, 4) (some (4, 2))
      Kind.queen).1 rfl rfl rfl (by decide) (by decide) rfl (by decide) rfl).2.2,
   (C3_amended s3c (7, 0) false none Kind.queen 7 8 ⟨Color.black, Kind.rook⟩
      s3d ⟨Color.white, Kind.pawn⟩ (0, 6) (0, 5) resetState (4, 4) (some (4, 2))
      Kind.queen).2.1 (by decide) (by decide)
      ⟨Color.black, [((0 : Int), (4 : Int))], 1, false⟩ (by decide) (by decide),
   (C3_amended s3c (7, 0) false none Kind.queen 7 8 ⟨Color.black, Kind.rook⟩
      s3d ⟨Color.white, Kind.pawn⟩ (0, 6) (0, 5) resetState (4, 4) (some (4, 2))
      Kind.queen).2.2 rfl (by decide)⟩

theorem getXY_setCellXY_eq (b : Board) (x y : Int) (c : Cell) (hlen : bIdx x y < b.length) :
    getXY (setCellXY b x y c) x y = c := by
  unfold getXY setCellXY
  rw [List.getD_eq_getElem?_getD, List.getElem?_set_self hlen]
  rfl

theorem getXY_setCellXY_ne (b : Board) (x y x' y' : Int) (c : Cell)
    (h : bIdx x y ≠ bIdx x' y') :
    getXY (setCellXY b x y c) x' y' = getXY b x' y' := by
  unfold getXY setCellXY
  rw [List.getD_eq_getElem?_getD, List.getElem?_set_ne h, ← List.getD_eq_getElem?_getD]

theorem getXY_setPieceXY_eq (b : Board) (x y : Int) (p : Option Piece)
    (hlen : bIdx x y < b.length) :
    getXY (setPieceXY b x y p) x y = { getXY b x y with piece := p } := by
  unfold setPieceXY
  exact getXY_setCellXY_eq b x y _ hlen

theorem getXY_setPieceXY_ne (b : Board) (x y x' y' : Int) (p : Option Piece)
    (h : bIdx x y ≠ bIdx x' y') :
    getXY (setPieceXY b x y p) x' y' = getXY b x' y' := by
  unfold setPieceXY
  exact getXY_setCellXY_ne b x y x' y' _ h

theorem setPieceXY_length (b : Board) (x y : Int) (p : Option Piece) :
    (setPieceXY b x y p).length = b.length := by
  unfold setPieceXY setCellXY
  exact List.length_set b _ _

def c4Board : Board :=
  setPieceFR (setPieceFR (setPieceFR emptyBoard 2 1
    (some ⟨Color.white, Kind.bishop⟩)) 4 1 (some ⟨Color.white, Kind.king⟩)) 6 5
    (some ⟨Color.black, Kind.king⟩)

def s4B : GameState :=
  { resetState with
    board := c4Board, wCharges := 1, previewing := true, powerPreviewActive := true,
    previewSource := some (2, 1), previewMoves := [(6, 3)],
    powerPreviewName := some "phase_shift" }

def s4A : GameState := { s4B with board := setPieceXY c4Board 5 4 (some ⟨Color.black, Kind.knight⟩) }

/-- Counterexample to claim C4: a committed phase_shift onto an unshielded
    enemy king (white bishop c1 to g5, black king on g5 with the f4 shield
    square empty) captures the king itself: the commit returns true, the
    captured list gains the black king, the bishop stands on g5 and no black
    king remains on the board. -/
theorem C4_counterexample :
    (superValidateMove s4B (6, 3) false none Kind.queen).1 = true ∧
    (superValidateMove s4B (6, 3) false none Kind.queen).2.captured =
      [⟨Color.black, Kind.king⟩] ∧
    (getXY (superValidateMove s4B (6, 3) false none Kind.queen).2.board 6 3).piece =
      some ⟨Color.white, Kind.bishop⟩ ∧
    findKing (superValidateMove s4B (6, 3) false none Kind.queen).2 Color.black = none := by
  refine ⟨by decide, by decide, by decide, by decide⟩

/-- Claim C4 (amended): for a phase_shift activation by a bishop whose target
    square holds an enemy king on the approach diagonal, if the square one step
    back along the diagonal holds a piece of the king's color then the
    activation captures that shield piece, lands the bishop on the shield
    square and leaves the king on its own square; but if the shield square is
    empty, the landing captures normally and the enemy king itself is captured
    and removed from the board (as the source's own docstring says, "Otherwise
    capture normally (king square)"). -/
theorem C4_amended (s : GameState) (sf sr : Nat) (dstX dstY sgx sgy : Int)
    (sp dk shp : Piece)
    (hb : s.board.length = 64) (hsf : sf < 8) (hsr1 : 1 ≤ sr) (hsr8 : sr ≤ 8)
    (hdx : 0 ≤ dstX ∧ dstX < 8) (hdy : 0 ≤ dstY ∧ dstY < 8)
    (hpiece : (getFR s.board sf sr).piece = some sp) (hkind : sp.kind = Kind.bishop)
    (hdst : (getXY s.board dstX dstY).piece = some dk) (hdk : dk.kind = Kind.king)
    (hcol : dk.color ≠ sp.color)
    (hsgx : sgx = signInt (dstX - (frToXY sf sr).1))
    (hsgy : sgy = signInt (dstY - (frToXY sf sr).2))
    (hd : sgx ≠ 0 ∧ sgy ≠ 0 ∧
      (dstX - (frToXY sf sr).1).natAbs = (dstY - (frToXY sf sr).2).natAbs)
    (hin : 0 ≤ dstX - sgx ∧ dstX - sgx < 8 ∧ 0 ≤ dstY - sgy ∧ dstY - sgy < 8) :
    ((getXY s.board (dstX - sgx) (dstY - sgy)).piece = some shp → shp.color = dk.color →
      (activatePhaseShift s sf sr dstX dstY).1 = true ∧
      (activatePhaseShift s sf sr dstX dstY).2.captured = s.captured ++ [shp] ∧
      (getXY (activatePhaseShift s sf sr dstX dstY).2.board
        (dstX - sgx) (dstY - sgy)).piece = some sp ∧
      (getXY (activatePhaseShift s sf sr dstX dstY).2.board dstX dstY).piece = some dk ∧
      (getFR (activatePhaseShift s sf sr dstX dstY).2.board sf sr).piece = none) ∧
    ((getXY s.board (dstX - sgx) (dstY - sgy)).piece = none →
      (activatePhaseShift s sf sr dstX dstY).1 = true ∧
      (activatePhaseShift s sf sr dstX dstY).2.captured = s.captured ++ [dk] ∧
      (getXY (activatePhaseShift s sf sr dstX dstY).2.board dstX dstY).piece = some sp ∧
      (getFR (activatePhaseShift s sf sr dstX dstY).2.board sf sr).piece = none) := by
  have hpiece' : (getXY s.board (sf : Int) (8 - (sr : Int))).piece = some sp := hpiece
  have hsgx_pm : sgx = 1 ∨ sgx = -1 := by
    unfold signInt at hsgx
    split_ifs at hsgx
    · exact absurd hsgx hd.1
    · exact Or.inl hsgx
    · exact Or.inr hsgx
  have hne_src_dst : bIdx (sf : Int) (8 - (sr : Int)) ≠ bIdx dstX dstY := by
    intro h
    have hcell : getXY s.board (sf : Int) (8 - (sr : Int)) = getXY s.board dstX dstY := by
      unfold getXY
      rw [h]
    rw [hcell, hdst] at hpiece'
    have hpd : dk = sp := Option.some.inj hpiece'
    rw [hpd, hkind] at hdk
    exact Kind.noConfusion hdk
  have hlen_src : bIdx (sf : Int) (8 - (sr : Int)) < s.board.length := by
    rw [hb]
    unfold bIdx
    omega
  have hlen_dst : bIdx dstX dstY < s.board.length := by
    rw [hb]
    unfold bIdx
    omega
  have hlen_sh : bIdx (dstX - sgx) (dstY - sgy) < s.board.length := by
    rw [hb]
    unfold bIdx
    omega
  have hne_sh_dst : bIdx (dstX - sgx) (dstY - sgy) ≠ bIdx dstX dstY := by
    rcases hsgx_pm with h | h <;> (rw [h] at hin ⊢; unfold bIdx; omega)
  have hsh_conv : setPieceFR s.board (xyToFR (dstX - sgx) (dstY - sgy)).1
      (xyToFR (dstX - sgx) (dstY - sgy)).2 (some sp) =
      setPieceXY s.board (dstX - sgx) (dstY - sgy) (some sp) := by
    unfold setPieceFR xyToFR
    dsimp only
    have h1 : (((dstX - sgx).toNat : Int)) = dstX - sgx := Int.toNat_of_nonneg hin.1
    have h2 : ((8 : Int) - (((8 - (dstY - sgy)).toNat : Int))) = dstY - sgy := by omega
    rw [h1, h2]
  constructor
  · intro hshp hshcol
    have hne_src_sh : bIdx (sf : Int) (8 - (sr : Int)) ≠ bIdx (dstX - sgx) (dstY - sgy) := by
      intro h
      have hcell : getXY s.board (sf : Int) (8 - (sr : Int)) =
          getXY s.board (dstX - sgx) (dstY - sgy) := by
        unfold getXY
        rw [h]
      rw [hcell, hshp] at hpiece'
      have hps : shp = sp := Option.some.inj hpiece'
      rw [hps] at hshcol
      exact hcol (hshcol.symm)
    unfold activatePhaseShift
    rw [hpiece]
    dsimp only
    rw [if_neg (not_not_intro hkind)]
    rw [hdst]
    dsimp only
    rw [if_pos ⟨hdk, hcol⟩, ← hsgx, ← hsgy, if_pos hd, if_pos hin, hshp]
    dsimp only
    rw [if_pos hshcol]
    dsimp only
    refine ⟨rfl, rfl, ?_, ?_, ?_⟩
    · rw [hsh_conv]
      unfold setCellFR
      rw [getXY_setCellXY_ne _ _ _ _ _ _ hne_src_sh,
        getXY_setPieceXY_eq _ _ _ _ hlen_sh]
    · rw [hsh_conv]
      unfold setCellFR
      rw [getXY_setCellXY_ne _ _ _ _ _ _ hne_src_dst,
        getXY_setPieceXY_ne _ _ _ _ _ _ hne_sh_dst]
      exact hdst
    · rw [hsh_conv]
      unfold getFR setCellFR
      rw [getXY_setCellXY_eq _ _ _ _ (by rw [setPieceXY_length]; exact hlen_src)]
      rfl
  · intro hshE
    unfold activatePhaseShift
    rw [hpiece]
    dsimp only
    rw [if_neg (not_not_intro hkind)]
    rw [hdst]
    dsimp only
    rw [if_pos ⟨hdk, hcol⟩, ← hsgx, ← hsgy, if_pos hd, if_pos hin, hshE]
    dsimp only
    rw [if_neg hcol]
    dsimp only
    refine ⟨rfl, rfl, ?_, ?_⟩
    · unfold setCellFR
      rw [getXY_setCellXY_ne _ _ _ _ _ _ hne_src_dst,
        getXY_setPieceXY_eq _ _ _ _ hlen_dst]
    · unfold getFR setCellFR
      rw [getXY_setCellXY_eq _ _ _ _ (by rw [setPieceXY_length]; exact hlen_src)]
      rfl

theorem C4_amended_witness :
    ((activatePhaseShift s4A 2 1 6 3).1 = true ∧
     (activatePhaseShift s4A 2 1 6 3).2.captured =
       s4A.captured ++ [⟨Color.black, Kind.knight⟩] ∧
     (getXY (activatePhaseShift s4A 2 1 6 3).2.board 5 4).piece =
       some ⟨Color.white, Kind.bishop⟩ ∧
     (getXY (activatePhaseShift s4A 2 1 6 3).2.board 6 3).piece =
       some ⟨Color.black, Kind.king⟩ ∧
     (getFR (activatePhaseShift s4A 2 1 6 3).2.board 2 1).piece = none) ∧
    ((activatePhaseShift s4B 2 1 6 3).1 = true ∧
     (activatePhaseShift s4B 2 1 6 3).2.captured =
       s4B.captured ++ [⟨Color.black, Kind.king⟩] ∧
     (getXY (activatePhaseShift s4B 2 1 6 3).2.board 6 3).piece =
       some ⟨Color.white, Kind.bishop⟩ ∧
     (getFR (activatePhaseShift s4B 2 1 6 3).2.board 2 1).piece = none) :=
  by
  constructor
  · have h := (C4_amended s4A 2 1 6 3 1 (-1) ⟨Color.white, Kind.bishop⟩
      ⟨Color.black, Kind.king⟩ ⟨Color.black, Kind.knight⟩ (by decide) (by decide)
      (by decide) (by decide) (by decide) (by decide) (by decide) (by decide)
      (by decide) (by decide) (by decide) (by decide) (by decide) (by decide)
      (by decide)).1 (by decide) (by decide)
    norm_num at h
    exact h
  · exact (C4_amended s4B 2 1 6 3 1 (-1) ⟨Color.white, Kind.bishop⟩
      ⟨Color.black, Kind.king⟩ ⟨Color.black, Kind.knight⟩ (by decide) (by decide)
      (by decide) (by decide) (by decide) (by decide) (by decide) (by decide)
      (by decide) (by decide) (by decide) (by decide) (by decide) (by decide)
      (by decide)).2 (by decide)

end Superchess
